import Mathlib

/-!
Shallow embedding of the valuation core of the korea-stock-analyzer-mcp
repository (TypeScript).  JavaScript numbers are modelled as exact rationals;
Math.round is round-half-up (toward positive infinity), mirroring JS semantics.
JS truthiness on numeric fields (x || d) is modelled by jsOr: the default is
taken exactly when the field is zero (or the containing object is absent).
Fractional exponentiation Math.pow(x, 1/years) for years >= 2 is an irrational
operation; it is abstracted as an explicit Root parameter threaded through the
analyzers, with the exact years = 1 case handled exactly.  All theorems that
quantify over snapshots also quantify over the Root parameter, and all concrete
counterexamples use inputs whose evaluation never consults it.
-/

namespace KSA

/-- Math.round in JavaScript: round half toward positive infinity. -/
def jsRound (q : ℚ) : ℚ := (⌊q + 1/2⌋ : ℤ)

/-- Math.round(x * 100) / 100, the two-decimal rounding idiom used throughout
the analyzers (also the semantics of Number(x.toFixed(2))). -/
def round2 (q : ℚ) : ℚ := jsRound (q * 100) / 100

/-- JS expression x || d on numbers: the default d is used when x is falsy (0). -/
def jsOr (x d : ℚ) : ℚ := if x = 0 then d else x

/-- Math.min over a non-empty argument list (0 for the empty list, unreachable). -/
def listMin : List ℚ → ℚ
  | [] => 0
  | x :: xs => xs.foldl min x

/-- Math.max over a non-empty argument list (0 for the empty list, unreachable). -/
def listMax : List ℚ → ℚ
  | [] => 0
  | x :: xs => xs.foldl max x

/-- Math.round(Math.sqrt q) for q >= 0, computed exactly on rationals:
the greatest m with m * m <= 4q is Nat.sqrt of the floor of 4q, and
round(sqrt q) = (m + 1) / 2 in natural division. -/
def jsRoundSqrt (q : ℚ) : ℚ := ((Nat.sqrt (Int.toNat ⌊4 * q⌋) + 1) / 2 : ℕ)

/-- Abstraction of Math.pow(x, 1/years): any function standing in for the
real years-th root.  Universally quantified in every theorem about the
analyzers, and never consulted on the concrete inputs of counterexamples. -/
def Root : Type := ℚ → ℕ → ℚ

/-- Math.pow(x, 1/years): exact for years = 1, abstract otherwise. -/
def powRoot (root : Root) (x : ℚ) (years : ℕ) : ℚ :=
  if years = 1 then x else root x years

/-- One annual fundamentals record (PER, PBR, EPS, BPS, dividend yield),
as produced by FinancialDataService (src/src/services/financial-data.ts). -/
structure FinancialData where
  per : ℚ
  pbr : ℚ
  eps : ℚ
  bps : ℚ
  div : ℚ
  deriving DecidableEq, Repr, Inhabited

/-- Market data fields read by the analyzers (src/src/services/market-data.ts). -/
structure MarketData where
  currentPrice : ℚ
  marketCap : ℚ
  sharesOutstanding : ℚ
  high52w : ℚ
  low52w : ℚ
  yearReturn : ℚ
  deriving DecidableEq, Repr

/-- Balance-sheet fields read by the Graham analyzer. -/
structure BalanceSheetData where
  currentAssets : ℚ
  fixedAssets : ℚ
  totalLiabilities : ℚ
  sharesOutstanding : ℚ
  deriving DecidableEq, Repr

/-- Cash-flow fields read by the Buffett analyzer. -/
structure CashFlowData where
  fcf : ℚ
  capitalExpenditures : ℚ
  deriving DecidableEq, Repr

/-- Growth metrics computed by DataFetcher and read by Lynch and Fisher. -/
structure GrowthMetrics where
  epsGrowth3yCagr : ℚ
  revenueGrowthEst : ℚ
  rdIntensity : ℚ
  deriving DecidableEq, Repr

/-- Efficiency metrics computed by DataFetcher and read by Fisher. -/
structure EfficiencyMetrics where
  roe : ℚ
  profitMarginEst : ℚ
  deriving DecidableEq, Repr

/-- The immutable per-request snapshot handed to the six analyzers:
the fields of AnalysisResult that the valuation stage destructures. -/
structure Snapshot where
  financialData : List FinancialData
  marketData : Option MarketData
  balanceSheetData : Option BalanceSheetData
  cashFlowData : Option CashFlowData
  growthMetrics : Option GrowthMetrics
  efficiencyMetrics : Option EfficiencyMetrics
  deriving DecidableEq, Repr

/-- The five-valued recommendation union type shared by all analyzers. -/
inductive Rec where
  | strongBuy
  | buy
  | hold
  | sell
  | strongSell
  deriving DecidableEq, Repr

/-- Expression marketData?.currentPrice || 0 used by every analyzer. -/
def cpOf (md : Option MarketData) : ℚ :=
  match md with
  | none => 0
  | some m => m.currentPrice

/-- BaseAnalyzer.calculateUpside (src/src/analyzers/base-analyzer.ts):
returns 0 instead of dividing when currentPrice <= 0. -/
def BaseAnalyzer.calculateUpside (fairValue currentPrice : ℚ) : ℚ :=
  if currentPrice ≤ 0 then 0 else ((fairValue - currentPrice) / currentPrice) * 100

namespace Graham

/-- GrahamAnalyzer.calculateNCAV: current assets minus total liabilities,
floored at 0; 0 when no balance sheet is available. -/
def calculateNCAV (bs : Option BalanceSheetData) : ℚ :=
  match bs with
  | none => 0
  | some b => max (b.currentAssets - b.totalLiabilities) 0

/-- GrahamAnalyzer.calculateGrahamNumber: round(sqrt(22.5 * EPS * BPS)) when
both EPS and BPS are positive, otherwise 0. -/
def calculateGrahamNumber (fund : FinancialData) : ℚ :=
  if fund.eps > 0 ∧ fund.bps > 0 then jsRoundSqrt (22.5 * fund.eps * fund.bps) else 0

/-- GrahamAnalyzer.calculateLiquidationValue: conservative liquidation value,
estimated as 66 percent of BPS when no balance sheet is available. -/
def calculateLiquidationValue (fund : FinancialData) (bs : Option BalanceSheetData) : ℚ :=
  match bs with
  | none => jsRound (fund.bps * 0.66)
  | some b =>
      jsRound ((b.currentAssets + b.fixedAssets * 0.5 - b.totalLiabilities) /
        (jsOr b.sharesOutstanding 1000000))

/-- GrahamAnalyzer.calculateEarningsValue: EPS * (8.5 + 2 * 3percent growth). -/
def calculateEarningsValue (fund : FinancialData) : ℚ :=
  jsRound (fund.eps * (8.5 + 2 * 3))

/-- GrahamAnalyzer.determineFairValue: keep only the strictly positive
candidates and take their minimum; 0 when no candidate is positive.
The revisedGrahamValue candidate is excluded in the source. -/
def determineFairValue (ncavPerShare grahamNumber liquidationValue earningsValue : ℚ) : ℚ :=
  let validValues := [ncavPerShare, grahamNumber, liquidationValue, earningsValue].filter
    (fun v => 0 < v)
  if validValues = [] then 0 else listMin validValues

/-- The seven defensive-investor criteria as a list of booleans, in source order. -/
def defensiveCriteria (fund : FinancialData) (md : Option MarketData) : List Bool :=
  [ (match md with | none => false | some m => decide (m.marketCap > 100000000000))
  , true
  , decide (fund.eps > 0)
  , decide (fund.div > 0)
  , true
  , decide (fund.per > 0 ∧ fund.per < 15)
  , decide (fund.pbr > 0 ∧ fund.pbr < 1.5) ]

/-- The five enterprising-investor criteria as a list of booleans, in source order. -/
def enterprisingCriteria (fund : FinancialData) : List Bool :=
  [ decide (fund.per > 0 ∧ fund.per < 10)
  , decide (fund.pbr > 0 ∧ fund.pbr < 1.2)
  , decide (fund.div > 4)
  , decide (fund.eps > 0)
  , true ]

/-- Margin-of-safety band of calculateGrahamScore (30 points). -/
def mosPoints (marginOfSafety : ℚ) : ℚ :=
  if marginOfSafety > 50 then 30 else if marginOfSafety > 33 then 25
  else if marginOfSafety > 20 then 15 else if marginOfSafety > 10 then 10 else 0

/-- NCAV-margin band of calculateGrahamScore (25 points). -/
def ncavPoints (ncavMargin : ℚ) : ℚ :=
  if ncavMargin > 33 then 25 else if ncavMargin > 20 then 20
  else if ncavMargin > 10 then 15 else if ncavMargin > 0 then 10 else 0

/-- Graham-number discount band of calculateGrahamScore (20 points). -/
def gnPoints (currentPrice grahamNumber : ℚ) : ℚ :=
  if currentPrice < grahamNumber * 0.67 then 20
  else if currentPrice < grahamNumber * 0.8 then 15
  else if currentPrice < grahamNumber then 10 else 0

/-- GrahamAnalyzer.calculateGrahamScore: banded points for margin of safety,
NCAV margin and Graham-number discount plus weighted criteria counts. -/
def calculateGrahamScore (marginOfSafety ncavMargin : ℚ) (defensiveScore enterprisingScore : ℕ)
    (currentPrice grahamNumber : ℚ) : ℚ :=
  jsRound (mosPoints marginOfSafety + ncavPoints ncavMargin + gnPoints currentPrice grahamNumber +
    (defensiveScore : ℚ) * 2.14 + (enterprisingScore : ℚ) * 2)

/-- GrahamAnalyzer.getGrahamRecommendation. -/
def getGrahamRecommendation (marginOfSafety ncavMargin score : ℚ) : Rec :=
  if score ≥ 80 ∧ marginOfSafety > 33 ∧ ncavMargin > 0 then .strongBuy
  else if score ≥ 60 ∧ marginOfSafety > 20 then .buy
  else if score ≥ 40 ∧ marginOfSafety > 0 then .hold
  else if score ≥ 20 then .sell
  else .strongSell

/-- Result record of GrahamAnalyzer.analyze (string diagnostics omitted). -/
structure Analysis where
  fairValue : ℚ
  recommendation : Rec
  ncavPerShare : ℚ
  netNetValue : ℚ
  grahamNumber : ℚ
  liquidationValue : ℚ
  earningsValue : ℚ
  grahamScore : ℚ
  deriving DecidableEq, Repr

/-- GrahamAnalyzer.analyze (src/src/analyzers/graham.ts). -/
def analyze (s : Snapshot) : Analysis :=
  let currentFund := s.financialData.headI
  let currentPrice := cpOf s.marketData
  let sharesOutstanding :=
    match s.marketData with
    | none => 1000000
    | some m => jsOr m.sharesOutstanding 1000000
  let ncav := calculateNCAV s.balanceSheetData
  let ncavPerShare := ncav / sharesOutstanding
  let netNetValue := ncavPerShare * 0.667
  let grahamNumber := calculateGrahamNumber currentFund
  let liquidationValue := calculateLiquidationValue currentFund s.balanceSheetData
  let earningsValue := calculateEarningsValue currentFund
  let defensiveScore := (defensiveCriteria currentFund s.marketData).countP id
  let enterprisingScore := (enterprisingCriteria currentFund).countP id
  let fairValue := determineFairValue netNetValue grahamNumber liquidationValue earningsValue
  let marginOfSafety := BaseAnalyzer.calculateUpside fairValue currentPrice
  let ncavMargin := BaseAnalyzer.calculateUpside ncavPerShare currentPrice
  let grahamScore := calculateGrahamScore marginOfSafety ncavMargin defensiveScore
    enterprisingScore currentPrice grahamNumber
  { fairValue := fairValue
  , recommendation := getGrahamRecommendation marginOfSafety ncavMargin grahamScore
  , ncavPerShare := ncavPerShare
  , netNetValue := netNetValue
  , grahamNumber := grahamNumber
  , liquidationValue := liquidationValue
  , earningsValue := earningsValue
  , grahamScore := grahamScore }

end Graham

namespace Greenblatt

/-- GreenblattAnalyzer.calculateROIC: estimated EBIT over estimated invested
capital, two-decimal rounded; 0 when invested capital is non-positive. -/
def calculateROIC (fund : FinancialData) : ℚ :=
  let ebit := fund.eps * 1.3
  let investedCapital := fund.bps * 0.8
  if investedCapital ≤ 0 then 0 else round2 ((ebit / investedCapital) * 100)

/-- GreenblattAnalyzer.calculateEarningsYield: estimated EBIT over estimated
enterprise value (marketCap * 1.3); 0 without positive market cap. -/
def calculateEarningsYield (fund : FinancialData) (md : Option MarketData) : ℚ :=
  match md with
  | none => 0
  | some m =>
      if m.marketCap ≤ 0 then 0
      else
        let ebit := fund.eps * 1.43
        let estimatedNetDebt := m.marketCap * 0.3
        let enterpriseValue := m.marketCap + estimatedNetDebt
        round2 ((ebit * m.sharesOutstanding) / enterpriseValue * 100)

/-- GreenblattAnalyzer.calculateAdjustedROIC. -/
def calculateAdjustedROIC (fund : FinancialData) : ℚ :=
  if fund.bps ≤ 0 then 0
  else
    let roe := (fund.eps / fund.bps) * 100
    let leverageAdjustment : ℚ := if fund.pbr > 1.5 then 0.8 else 1.0
    round2 (roe * leverageAdjustment)

/-- GreenblattAnalyzer.calculateFCFYield: estimated FCF over market cap. -/
def calculateFCFYield (fund : FinancialData) (md : Option MarketData) : ℚ :=
  let marketCap := match md with | none => 1 | some m => jsOr m.marketCap 1
  let fcf := fund.eps * 0.7
  jsRound ((fcf / marketCap) * 10000 * 100) / 100

/-- GreenblattAnalyzer.calculateMagicScore: ROIC capped at 50 plus twice the
earnings yield capped at 50, rounded. -/
def calculateMagicScore (roic earningsYield : ℚ) : ℚ :=
  jsRound (min roic 50 + min (earningsYield * 2) 50)

/-- GreenblattAnalyzer.getRank with thresholds t1 < t2 < t3 < t4 < t5:
1 is best, 5 is worst (values below t2 collapse to rank 5 as in the source). -/
def getRank (value t1 t2 t3 t4 t5 : ℚ) : ℕ :=
  if value ≥ t5 then 1 else if value ≥ t4 then 2 else if value ≥ t3 then 3
  else if value ≥ t2 then 4 else if value ≥ t1 then 5 else 5

/-- ROIC-dependent target yield of calculateGreenblattFairValue: the base
10 percent tightens to 7 percent as ROIC rises. -/
def targetYieldOf (roic : ℚ) : ℚ :=
  if roic > 30 then 7 else if roic > 20 then 8 else if roic > 15 then 9 else 10

/-- GreenblattAnalyzer.calculateGreenblattFairValue: EPS times a target PER
derived from a ROIC-dependent target yield, with the extreme-value clamp
that replaces fair values above 3x the current price by round(2.5x price). -/
def calculateGreenblattFairValue (fund : FinancialData) (roic currentPrice : ℚ) : ℚ :=
  let targetPER := 100 / targetYieldOf roic
  let fairValue := fund.eps * targetPER
  if fairValue > currentPrice * 3 then jsRound (currentPrice * 2.5) else jsRound fairValue

/-- GreenblattAnalyzer.calculateQualityMetrics score: 20 points for each of
five boolean quality checks (growth is assumed true in the source). -/
def qualityMetricsScore (fund : FinancialData) : ℚ :=
  20 * (([ decide (fund.eps > 0)
         , decide (fund.per > 0 ∧ fund.per < 20)
         , decide (fund.pbr > 0 ∧ fund.pbr < 3)
         , decide (fund.div > 0)
         , true ] : List Bool).countP id : ℕ)

/-- Magic-score band of calculateComprehensiveScore (40 points). -/
def magicPoints (magicScore : ℚ) : ℚ :=
  if magicScore ≥ 80 then 40 else if magicScore ≥ 60 then 30
  else if magicScore ≥ 40 then 20 else if magicScore ≥ 20 then 10 else 0

/-- Rank band of calculateComprehensiveScore (30 points). -/
def rankPoints (combinedRank : ℚ) : ℚ :=
  if combinedRank ≤ 2 then 30 else if combinedRank ≤ 3 then 20
  else if combinedRank ≤ 4 then 10 else 0

/-- Upside band of calculateComprehensiveScore (10 points). -/
def upsidePoints (upside : ℚ) : ℚ :=
  if upside > 50 then 10 else if upside > 30 then 7 else if upside > 15 then 5 else 0

/-- GreenblattAnalyzer.calculateComprehensiveScore. -/
def calculateComprehensiveScore (magicScore : ℚ) (combinedRank : ℚ) (qualityScore upside : ℚ) :
    ℚ :=
  jsRound (magicPoints magicScore + rankPoints combinedRank + qualityScore * 0.2 +
    upsidePoints upside)

/-- GreenblattAnalyzer.getGreenblattRecommendation. -/
def getGreenblattRecommendation (magicScore comprehensiveScore combinedRank : ℚ) : Rec :=
  if comprehensiveScore ≥ 80 ∧ combinedRank ≤ 2 then .strongBuy
  else if comprehensiveScore ≥ 60 ∧ magicScore ≥ 50 then .buy
  else if comprehensiveScore ≥ 40 ∨ magicScore ≥ 30 then .hold
  else if comprehensiveScore ≥ 20 then .sell
  else .strongSell

/-- Result record of GreenblattAnalyzer.analyze (string diagnostics omitted). -/
structure Analysis where
  fairValue : ℚ
  recommendation : Rec
  roic : ℚ
  earningsYield : ℚ
  magicScore : ℚ
  combinedRank : ℚ
  upside : ℚ
  comprehensiveScore : ℚ
  deriving DecidableEq, Repr

/-- GreenblattAnalyzer.analyze (src/src/analyzers/greenblatt.ts). -/
def analyze (s : Snapshot) : Analysis :=
  let currentFund := s.financialData.headI
  let currentPrice := cpOf s.marketData
  let roic := calculateROIC currentFund
  let earningsYield := calculateEarningsYield currentFund s.marketData
  let magicScore := calculateMagicScore roic earningsYield
  let roicRank := getRank roic 5 10 15 20 30
  let eyRank := getRank earningsYield 3 5 7 10 15
  let combinedRank := jsRound (((roicRank : ℚ) + (eyRank : ℚ)) / 2)
  let qualityScore := qualityMetricsScore currentFund
  let fairValue := calculateGreenblattFairValue currentFund roic currentPrice
  let upside := BaseAnalyzer.calculateUpside fairValue currentPrice
  let comprehensiveScore := calculateComprehensiveScore magicScore combinedRank qualityScore
    upside
  { fairValue := fairValue
  , recommendation := getGreenblattRecommendation magicScore comprehensiveScore combinedRank
  , roic := roic
  , earningsYield := earningsYield
  , magicScore := magicScore
  , combinedRank := combinedRank
  , upside := upside
  , comprehensiveScore := comprehensiveScore }

end Greenblatt

namespace Buffett

/-- BuffettAnalyzer.calculateROE: default 10 when BPS is non-positive. -/
def calculateROE (fund : FinancialData) : ℚ :=
  if fund.bps ≤ 0 then 10 else (fund.eps / fund.bps) * 100

/-- BuffettAnalyzer.calculateAverageROE over the positive per-year ROEs. -/
def calculateAverageROE (history : List FinancialData) : ℚ :=
  let roes := (history.map calculateROE).filter (fun r => 0 < r)
  if roes.length = 0 then 10 else roes.sum / roes.length

/-- BuffettAnalyzer.calculateDebtToEquity: estimated from PBR. -/
def calculateDebtToEquity (fund : FinancialData) : ℚ :=
  if fund.bps = 0 then 0.5 else if fund.pbr > 1 then 0.3 else 0.5

/-- BuffettAnalyzer.calculateFCF: cashFlowData.fcf, 0 when absent. -/
def calculateFCF (cf : Option CashFlowData) : ℚ :=
  match cf with
  | none => 0
  | some c => c.fcf

/-- BuffettAnalyzer.calculateOwnerEarnings: net income plus estimated
depreciation minus estimated maintenance capex, floored at 0. -/
def calculateOwnerEarnings (fund : FinancialData) (cf : Option CashFlowData) : ℚ :=
  let netIncome := fund.eps
  let depreciation := netIncome * 0.17
  let totalCapEx :=
    match cf with
    | none => netIncome * 0.3
    | some c => jsOr c.capitalExpenditures (netIncome * 0.3)
  let maintenanceCapEx := |totalCapEx| * 0.5
  max (netIncome + depreciation - maintenanceCapEx) 0

/-- BuffettAnalyzer.calculateRetainedEarningsGrowth: fitted CAGR of EPS over
the available history (default 0.1 with fewer than two records). -/
def calculateRetainedEarningsGrowth (root : Root) (history : List FinancialData) : ℚ :=
  if history.length < 2 then 0.1
  else
    let firstEps := jsOr ((history.getLast?).elim 0 (fun f => f.eps)) 1
    let lastEps := jsOr history.headI.eps 1
    let years := max (history.length - 1) 1
    if firstEps > 0 then powRoot root (lastEps / firstEps) years - 1 else 0.1

/-- BuffettAnalyzer.calculateDCFValue: ten-year discounted projection plus a
Gordon-growth terminal value at 3 percent, divided by shares outstanding. -/
def calculateDCFValue (fcf growthRate discountRate shares : ℚ) : ℚ :=
  let fcf := if fcf ≤ 0 then 1000000000 else fcf
  let dcfValue := ∑ year ∈ Finset.range 10,
    fcf * (1 + growthRate) ^ (year + 1) / (1 + discountRate) ^ (year + 1)
  let terminalGrowth : ℚ := 0.03
  let terminalFCF := fcf * (1 + growthRate) ^ 10 * (1 + terminalGrowth)
  let terminalValue := terminalFCF / (discountRate - terminalGrowth)
  let terminalPV := terminalValue / (1 + discountRate) ^ 10
  let total := dcfValue + terminalPV
  if shares > 0 then total / shares else total / 1000000

/-- ROE ladder of calculateBuffettQualityScore (30 points). -/
def roePoints (roe : ℚ) : ℚ :=
  if roe ≥ 20 then 30 else if roe ≥ 15 then 20 else if roe ≥ 10 then 10 else 0

/-- Debt-to-equity ladder of calculateBuffettQualityScore (20 points). -/
def debtPoints (debtToEquity : ℚ) : ℚ :=
  if debtToEquity < 0.5 then 20 else if debtToEquity < 1.0 then 10 else 0

/-- FCF-yield ladder of calculateBuffettQualityScore (15 points). -/
def fcfYieldPoints (fcfYield : ℚ) : ℚ :=
  if fcfYield > 10 then 15 else if fcfYield > 5 then 10 else if fcfYield > 3 then 5 else 0

/-- Net-margin ladder of calculateBuffettQualityScore (15 points). -/
def netMarginPoints (netMargin : ℚ) : ℚ :=
  if netMargin ≥ 20 then 15 else if netMargin ≥ 15 then 10 else if netMargin ≥ 10 then 5 else 0

/-- Gross-margin ladder of calculateBuffettQualityScore (10 points). -/
def grossMarginPoints (grossMargin : ℚ) : ℚ :=
  if grossMargin ≥ 40 then 10 else if grossMargin ≥ 30 then 5 else 0

/-- Current-ratio ladder of calculateBuffettQualityScore (5 points). -/
def currentRatioPoints (currentRatio : ℚ) : ℚ :=
  if currentRatio ≥ 1.5 then 5 else if currentRatio ≥ 1.0 then 3 else 0

/-- Retained-earnings-growth ladder of calculateBuffettQualityScore (5 points). -/
def regPoints (retainedEarningsGrowth : ℚ) : ℚ :=
  if retainedEarningsGrowth > 0.15 then 5 else if retainedEarningsGrowth > 0.10 then 3 else 0

/-- BuffettAnalyzer.calculateBuffettQualityScore: weighted threshold ladder
over seven quality metrics, 100 points total. -/
def calculateBuffettQualityScore (roe debtToEquity fcfYield netMargin grossMargin
    currentRatio retainedEarningsGrowth : ℚ) : ℚ :=
  roePoints roe + debtPoints debtToEquity + fcfYieldPoints fcfYield + netMarginPoints netMargin +
    grossMarginPoints grossMargin + currentRatioPoints currentRatio +
    regPoints retainedEarningsGrowth

/-- BuffettAnalyzer.getBuffettRecommendation. -/
def getBuffettRecommendation (qualityScore marginOfSafety : ℚ) : Rec :=
  if qualityScore ≥ 70 ∧ marginOfSafety > 20 then .strongBuy
  else if qualityScore ≥ 50 ∧ marginOfSafety > 0 then .buy
  else if qualityScore ≥ 30 then .hold
  else if qualityScore ≥ 20 then .sell
  else .strongSell

/-- Result record of BuffettAnalyzer.analyze (string diagnostics omitted). -/
structure Analysis where
  fairValue : ℚ
  recommendation : Rec
  qualityScore : ℚ
  marginOfSafety : ℚ
  deriving DecidableEq, Repr

/-- BuffettAnalyzer.analyze (src/src/analyzers/buffett.ts).  The fixed
netMargin 15, grossMargin 30 and currentRatio 1.5 defaults are inlined as in
calculateMargins and calculateCurrentRatio. -/
def analyze (root : Root) (s : Snapshot) : Analysis :=
  let currentFund := s.financialData.headI
  let financialHistory := s.financialData
  let currentPrice := cpOf s.marketData
  let avgROE := calculateAverageROE financialHistory
  let debtToEquity := calculateDebtToEquity currentFund
  let ownerEarnings := calculateOwnerEarnings currentFund s.cashFlowData
  let fcf := calculateFCF s.cashFlowData
  let marketCapOr1 := match s.marketData with | none => 1 | some m => jsOr m.marketCap 1
  let fcfYield := if currentPrice > 0 then (fcf / marketCapOr1) * 100 else 0
  let retainedEarningsGrowth := calculateRetainedEarningsGrowth root financialHistory
  let qualityScore := calculateBuffettQualityScore avgROE debtToEquity fcfYield 15 30 1.5
    retainedEarningsGrowth
  let discountRate : ℚ := 0.08
  let growthRate := min retainedEarningsGrowth 0.15
  let valueBase := if ownerEarnings > 0 then ownerEarnings else fcf
  let shares := match s.marketData with | none => 1 | some m => jsOr m.sharesOutstanding 1
  let dcfValue := calculateDCFValue valueBase growthRate discountRate shares
  let fairValue := jsRound (dcfValue * 0.7)
  let marginOfSafety := BaseAnalyzer.calculateUpside fairValue currentPrice
  { fairValue := fairValue
  , recommendation := getBuffettRecommendation qualityScore marginOfSafety
  , qualityScore := qualityScore
  , marginOfSafety := marginOfSafety }

end Buffett

namespace Lynch

/-- Lynch company categories (the six-way classification). -/
inductive CompanyType where
  | fastGrower
  | stalwart
  | slowGrower
  | assetPlay
  | turnaround
  | cyclical
  deriving DecidableEq, Repr

/-- LynchAnalyzer.calculateEPSGrowthRate: stored 3-year CAGR when truthy,
otherwise a manual CAGR over up to three trailing years, default 10. -/
def calculateEPSGrowthRate (root : Root) (history : List FinancialData)
    (gm : Option GrowthMetrics) : ℚ :=
  let cagr := match gm with | none => 0 | some g => g.epsGrowth3yCagr
  if cagr ≠ 0 then cagr
  else if history.length ≥ 3 then
    let current := history.headI.eps
    let threeYearsAgo := (history.getD (min 2 (history.length - 1)) default).eps
    if threeYearsAgo > 0 ∧ current > 0 then
      (powRoot root (current / threeYearsAgo) (min 3 (history.length - 1)) - 1) * 100
    else 10
  else 10

/-- LynchAnalyzer.calculateSalesGrowthRate: 80 percent of the manually
computed EPS growth (the stored metrics are not consulted in the source). -/
def calculateSalesGrowthRate (root : Root) (history : List FinancialData) : ℚ :=
  calculateEPSGrowthRate root history none * 0.8

/-- LynchAnalyzer.calculatePEG: 999 when growth is non-positive. -/
def calculatePEG (per growthRate : ℚ) : ℚ :=
  if growthRate ≤ 0 then 999 else round2 (per / growthRate)

/-- LynchAnalyzer.calculateDividendAdjustedPEG. -/
def calculateDividendAdjustedPEG (per growthRate dividendYield : ℚ) : ℚ :=
  let adjustedGrowth := growthRate + dividendYield
  if adjustedGrowth ≤ 0 then 999 else round2 (per / adjustedGrowth)

/-- LynchAnalyzer.classifyCompany. -/
def classifyCompany (growthRate : ℚ) (fund : FinancialData) : CompanyType :=
  if growthRate > 20 then .fastGrower
  else if growthRate > 10 then .stalwart
  else if growthRate > 5 then .slowGrower
  else if fund.per < 10 ∧ fund.pbr < 1 then .assetPlay
  else if growthRate < 0 then .turnaround
  else .cyclical

/-- LynchAnalyzer.determineFairPER: target PER equals growth rate (floor 5)
with category-specific multipliers and caps. -/
def determineFairPER (growthRate : ℚ) (companyType : CompanyType) : ℚ :=
  let fairPer := max growthRate 5
  match companyType with
  | .fastGrower => min (fairPer * 1.5) 40
  | .stalwart => min fairPer 20
  | .slowGrower => min (fairPer * 0.8) 12
  | .assetPlay => 10
  | .turnaround => 8
  | .cyclical => min fairPer 15

/-- LynchAnalyzer.calculateDebtToEquity: estimated from PBR. -/
def calculateDebtToEquity (fund : FinancialData) : ℚ :=
  if fund.pbr > 2 then 1.0 else if fund.pbr > 1 then 0.5 else 0.3

/-- PEG ladder of calculateLynchScore (40 points). -/
def pegPoints (peg : ℚ) : ℚ :=
  if peg ≤ 0.5 then 40 else if peg ≤ 1.0 then 30 else if peg ≤ 1.5 then 20
  else if peg ≤ 2.0 then 10 else 0

/-- Dividend-adjusted PEG ladder of calculateLynchScore (20 points). -/
def dividendPegPoints (dividendAdjustedPEG : ℚ) : ℚ :=
  if dividendAdjustedPEG ≤ 1.0 then 20 else if dividendAdjustedPEG ≤ 1.5 then 10 else 0

/-- EPS-growth ladder of calculateLynchScore (15 points). -/
def growthPoints (epsGrowthRate : ℚ) : ℚ :=
  if epsGrowthRate ≥ 20 then 15 else if epsGrowthRate ≥ 15 then 10
  else if epsGrowthRate ≥ 10 then 5 else 0

/-- Sales-growth ladder of calculateLynchScore (10 points). -/
def salesPoints (salesGrowthRate : ℚ) : ℚ :=
  if salesGrowthRate ≥ 15 then 10 else if salesGrowthRate ≥ 10 then 5 else 0

/-- Leverage ladder of calculateLynchScore (10 points). -/
def leveragePoints (debtToEquity : ℚ) : ℚ :=
  if debtToEquity < 0.3 then 10 else if debtToEquity < 0.5 then 5 else 0

/-- Category bonus of calculateLynchScore (5 points). -/
def typePoints (companyType : CompanyType) : ℚ :=
  match companyType with
  | .fastGrower => 5
  | .stalwart => 5
  | _ => 0

/-- LynchAnalyzer.calculateLynchScore: 100-point ladder over PEG, adjusted
PEG, growth, sales growth, leverage and category. -/
def calculateLynchScore (peg dividendAdjustedPEG epsGrowthRate salesGrowthRate
    debtToEquity : ℚ) (companyType : CompanyType) : ℚ :=
  pegPoints peg + dividendPegPoints dividendAdjustedPEG + growthPoints epsGrowthRate +
    salesPoints salesGrowthRate + leveragePoints debtToEquity + typePoints companyType

/-- LynchAnalyzer.getLynchRecommendation. -/
def getLynchRecommendation (peg _dividendPEG margin score : ℚ) : Rec :=
  if score ≥ 80 ∧ peg ≤ 1.0 ∧ margin > 30 then .strongBuy
  else if score ≥ 60 ∧ peg ≤ 1.5 ∧ margin > 15 then .buy
  else if score ≥ 40 ∨ peg ≤ 2.0 then .hold
  else if score ≥ 20 then .sell
  else .strongSell

/-- Result record of LynchAnalyzer.analyze (string diagnostics omitted). -/
structure Analysis where
  fairValue : ℚ
  recommendation : Rec
  category : CompanyType
  growthRate : ℚ
  pegRatio : ℚ
  fairPer : ℚ
  lynchScore : ℚ
  deriving DecidableEq, Repr

/-- LynchAnalyzer.analyze (part of the repository sources). -/
def analyze (root : Root) (s : Snapshot) : Analysis :=
  let currentFund := s.financialData.headI
  let financialHistory := s.financialData
  let currentPrice := cpOf s.marketData
  let epsGrowthRate := calculateEPSGrowthRate root financialHistory s.growthMetrics
  let salesGrowthRate := calculateSalesGrowthRate root financialHistory
  let peg := calculatePEG currentFund.per epsGrowthRate
  let dividendAdjustedPEG := calculateDividendAdjustedPEG currentFund.per epsGrowthRate
    currentFund.div
  let companyType := classifyCompany epsGrowthRate currentFund
  let fairPer := determineFairPER epsGrowthRate companyType
  let fairValue := jsRound (currentFund.eps * fairPer)
  let debtToEquity := calculateDebtToEquity currentFund
  let lynchScore := calculateLynchScore peg dividendAdjustedPEG epsGrowthRate salesGrowthRate
    debtToEquity companyType
  let margin := BaseAnalyzer.calculateUpside fairValue currentPrice
  { fairValue := fairValue
  , recommendation := getLynchRecommendation peg dividendAdjustedPEG margin lynchScore
  , category := companyType
  , growthRate := epsGrowthRate
  , pegRatio := peg
  , fairPer := fairPer
  , lynchScore := lynchScore }

end Lynch

namespace Fisher

/-- Fisher investment-suitability verdict. -/
inductive Suitability where
  | suitable
  | marginal
  | unsuitable
  deriving DecidableEq, Repr

/-- FisherAnalyzer.evaluateFisherChecklist: the fifteen boolean checklist
items in source order (several default to true absent qualitative data). -/
def evaluateFisherChecklist (s : Snapshot) : List Bool :=
  let fund := s.financialData.headI
  let revenueGrowthEst : ℚ :=
    match s.growthMetrics with | none => 10 | some g => jsOr g.revenueGrowthEst 10
  let rdIntensity : ℚ :=
    match s.growthMetrics with | none => 3 | some g => jsOr g.rdIntensity 3
  let profitMarginEst : ℚ :=
    match s.efficiencyMetrics with | none => 10 | some e => jsOr e.profitMarginEst 10
  let roe : ℚ := match s.efficiencyMetrics with | none => 10 | some e => jsOr e.roe 10
  [ decide (revenueGrowthEst > 10)
  , true
  , decide (rdIntensity > 2)
  , decide (fund.per > 0 ∧ fund.per < 25)
  , decide (profitMarginEst > 10)
  , true
  , true
  , true
  , (match s.marketData with | none => false | some m => decide (m.marketCap > 100000000000))
  , decide (fund.pbr > 0 ∧ fund.pbr < 3)
  , decide (roe > 15)
  , decide (fund.eps > 0)
  , true
  , decide (fund.div > 0)
  , true ]

/-- FisherAnalyzer.calculateEPSGrowth: CAGR over up to three trailing years
(default 10 with a single record, 0 when the base year is non-positive). -/
def calculateEPSGrowth (root : Root) (history : List FinancialData) : ℚ :=
  if history.length < 2 then 10
  else
    let current := history.headI.eps
    let previous := jsOr ((history.getD (min 2 (history.length - 1)) default).eps) 1
    if previous ≤ 0 then 0
    else (powRoot root (current / previous) (min 3 (history.length - 1)) - 1) * 100

/-- FisherAnalyzer.estimateSalesGrowth: 80 percent of the EPS growth. -/
def estimateSalesGrowth (root : Root) (history : List FinancialData) : ℚ :=
  calculateEPSGrowth root history * 0.8

/-- Growth figures produced by FisherAnalyzer.analyzeGrowthMetrics
(two-decimal rounded). -/
structure GrowthAnalysis where
  salesGrowth : ℚ
  earningsGrowth : ℚ
  rdIntensity : ℚ
  deriving DecidableEq, Repr

/-- FisherAnalyzer.analyzeGrowthMetrics. -/
def analyzeGrowthMetrics (root : Root) (history : List FinancialData)
    (gm : Option GrowthMetrics) : GrowthAnalysis :=
  let salesGrowth := match gm with
    | none => estimateSalesGrowth root history
    | some g => jsOr g.revenueGrowthEst (estimateSalesGrowth root history)
  let earningsGrowth := match gm with
    | none => calculateEPSGrowth root history
    | some g => jsOr g.epsGrowth3yCagr (calculateEPSGrowth root history)
  let rdIntensity := match gm with
    | none => 3
    | some g => jsOr g.rdIntensity 3
  { salesGrowth := round2 salesGrowth
  , earningsGrowth := round2 earningsGrowth
  , rdIntensity := round2 rdIntensity }

/-- ROE band of evaluateManagementQuality (40 points). -/
def mqRoePoints (roe : ℚ) : ℚ :=
  if roe > 20 then 40 else if roe > 15 then 30 else if roe > 10 then 20
  else if roe > 5 then 10 else 0

/-- Dividend-policy band of evaluateManagementQuality (20 points). -/
def mqDivPoints (div : ℚ) : ℚ :=
  if div > 3 then 20 else if div > 2 then 15 else if div > 1 then 10 else if div > 0 then 5 else 0

/-- Profitability band of evaluateManagementQuality (20 points). -/
def mqProfitPoints (eps per : ℚ) : ℚ :=
  if eps > 0 ∧ per < 20 then 20 else if eps > 0 ∧ per < 30 then 10 else 0

/-- Financial-health band of evaluateManagementQuality (20 points). -/
def mqFinPoints (pbr : ℚ) : ℚ :=
  if pbr < 2 then 20 else if pbr < 3 then 10 else 0

/-- FisherAnalyzer.evaluateManagementQuality. -/
def evaluateManagementQuality (s : Snapshot) : ℚ :=
  let fund := s.financialData.headI
  let roe : ℚ := match s.efficiencyMetrics with | none => 10 | some e => jsOr e.roe 10
  mqRoePoints roe + mqDivPoints fund.div + mqProfitPoints fund.eps fund.per + mqFinPoints fund.pbr

/-- Innovation ladder over raw R and D intensity (100 points). -/
def innovationPoints (rdIntensity : ℚ) : ℚ :=
  if rdIntensity > 10 then 100 else if rdIntensity > 5 then 80
  else if rdIntensity > 3 then 60 else if rdIntensity > 2 then 40
  else if rdIntensity > 1 then 20 else 0

/-- FisherAnalyzer.evaluateInnovation: ladder over raw R and D intensity. -/
def evaluateInnovation (gm : Option GrowthMetrics) : ℚ :=
  innovationPoints (match gm with | none => 3 | some g => jsOr g.rdIntensity 3)

/-- Market-position band of evaluateCompetitiveAdvantage (30 points). -/
def caCapPoints (marketCap : ℚ) : ℚ :=
  if marketCap > 1000000000000 then 30 else if marketCap > 500000000000 then 20
  else if marketCap > 100000000000 then 10 else 0

/-- Profitability-edge band of evaluateCompetitiveAdvantage (30 points). -/
def caRoePoints (roe : ℚ) : ℚ :=
  if roe > 20 then 30 else if roe > 15 then 20 else if roe > 10 then 10 else 0

/-- Valuation-premium band of evaluateCompetitiveAdvantage (20 points). -/
def caPerPoints (per : ℚ) : ℚ :=
  if per > 20 then 20 else if per > 15 then 10 else 0

/-- Brand-value band of evaluateCompetitiveAdvantage (20 points). -/
def caPbrPoints (pbr : ℚ) : ℚ :=
  if pbr > 2 then 20 else if pbr > 1.5 then 10 else 0

/-- FisherAnalyzer.evaluateCompetitiveAdvantage, capped at 100. -/
def evaluateCompetitiveAdvantage (s : Snapshot) : ℚ :=
  let fund := s.financialData.headI
  let marketCap : ℚ := match s.marketData with | none => 0 | some m => m.marketCap
  let roe : ℚ := match s.efficiencyMetrics with | none => 10 | some e => jsOr e.roe 10
  min (caCapPoints marketCap + caRoePoints roe + caPerPoints fund.per + caPbrPoints fund.pbr) 100

/-- Sales-growth band of evaluateLongTermPotential (40 points, floor 10). -/
def ltpGrowthScore (salesGrowth : ℚ) : ℚ :=
  if salesGrowth > 15 then 40 else if salesGrowth > 10 then 30 else if salesGrowth > 5 then 20
  else 10

/-- FisherAnalyzer.evaluateLongTermPotential. -/
def evaluateLongTermPotential (growth : GrowthAnalysis) (innovation competitive : ℚ) : ℚ :=
  jsRound (ltpGrowthScore growth.salesGrowth + innovation * 0.3 + competitive * 0.3)

/-- Earnings-growth band of calculateFisherScore (25 points). -/
def fsGrowthPoints (earningsGrowth : ℚ) : ℚ :=
  if earningsGrowth > 20 then 25 else if earningsGrowth > 15 then 20
  else if earningsGrowth > 10 then 15 else if earningsGrowth > 5 then 10 else 0

/-- FisherAnalyzer.calculateFisherScore: 100-point composite. -/
def calculateFisherScore (checklistScore : ℕ) (growth : GrowthAnalysis)
    (managementQuality innovationScore competitiveAdvantage longTermPotential : ℚ) : ℚ :=
  jsRound ((checklistScore : ℚ) / 15 * 40 + fsGrowthPoints growth.earningsGrowth +
    managementQuality * 0.15 + innovationScore * 0.1 + competitiveAdvantage * 0.05 +
    longTermPotential * 0.05)

/-- FisherAnalyzer.getFisherRecommendation. -/
def getFisherRecommendation (checklistScore : ℕ) (suitability : Suitability) : Rec :=
  if suitability = .suitable ∧ checklistScore ≥ 12 then .strongBuy
  else if suitability = .suitable ∧ checklistScore ≥ 10 then .buy
  else if suitability = .marginal ∨ checklistScore ≥ 7 then .hold
  else if checklistScore ≥ 5 then .sell
  else .strongSell

/-- Result record of FisherAnalyzer.analyze (string diagnostics omitted).
The fair value is fixed at 0: Fisher produces no price target. -/
structure Analysis where
  fairValue : ℚ
  recommendation : Rec
  checklistPoints : ℕ
  fisherScore : ℚ
  deriving DecidableEq, Repr

/-- FisherAnalyzer.analyze (part of the repository sources). -/
def analyze (root : Root) (s : Snapshot) : Analysis :=
  let checklist := evaluateFisherChecklist s
  let checklistScore := checklist.countP id
  let growthAnalysis := analyzeGrowthMetrics root s.financialData s.growthMetrics
  let managementQuality := evaluateManagementQuality s
  let innovationScore := evaluateInnovation s.growthMetrics
  let competitiveAdvantage := evaluateCompetitiveAdvantage s
  let longTermPotential := evaluateLongTermPotential growthAnalysis innovationScore
    competitiveAdvantage
  let investmentSuitability : Suitability :=
    if checklistScore ≥ 10 then .suitable else if checklistScore ≥ 7 then .marginal
    else .unsuitable
  let fisherScore := calculateFisherScore checklistScore growthAnalysis managementQuality
    innovationScore competitiveAdvantage longTermPotential
  { fairValue := 0
  , recommendation := getFisherRecommendation checklistScore investmentSuitability
  , checklistPoints := checklistScore
  , fisherScore := fisherScore }

end Fisher

namespace Templeton

/-- TempletonAnalyzer.calculate52WeekPosition: percentile of the current
price in the 52-week range, clamped to the 0 to 100 band and rounded;
50 when the range data is missing or degenerate. -/
def calculate52WeekPosition (md : Option MarketData) : ℚ :=
  match md with
  | none => 50
  | some m =>
      if m.high52w = 0 ∨ m.low52w = 0 then 50
      else
        let range := m.high52w - m.low52w
        if range ≤ 0 then 50
        else jsRound (max 0 (min 100 ((m.currentPrice - m.low52w) / range * 100)))

/-- The contrarian indicators of TempletonAnalyzer.evaluateContrarianIndicators
that feed the pessimism score, the timing score and the value-trap logic. -/
structure Indicators where
  near52WeekLow : Bool
  down50PercentFromHigh : Bool
  veryLowPER : Bool
  deepValuePBR : Bool
  deepNegativeReturn : Bool
  exceptionalDividend : Bool
  extremeFear : Bool
  panicSelling : Bool
  profitableButCheap : Bool
  cashRichButCheap : Bool
  deriving DecidableEq, Repr

/-- Expression marketData?.yearReturn || 0. -/
def yearReturnOf (md : Option MarketData) : ℚ :=
  match md with
  | none => 0
  | some m => m.yearReturn

/-- TempletonAnalyzer.evaluateContrarianIndicators (the fields consumed
downstream). -/
def evaluateContrarianIndicators (fund : FinancialData) (md : Option MarketData)
    (pricePosition : ℚ) : Indicators :=
  let yearReturn := yearReturnOf md
  { near52WeekLow := decide (pricePosition < 25)
  , down50PercentFromHigh := decide (pricePosition < 50)
  , veryLowPER := decide (fund.per > 0 ∧ fund.per < 7)
  , deepValuePBR := decide (fund.pbr > 0 ∧ fund.pbr < 0.7)
  , deepNegativeReturn := decide (yearReturn < -20)
  , exceptionalDividend := decide (fund.div > 6)
  , extremeFear := decide (pricePosition < 20 ∧ fund.per < 10)
  , panicSelling := decide (pricePosition < 15 ∧ yearReturn < -30)
  , profitableButCheap := decide (fund.eps > 0 ∧ fund.per < 8)
  , cashRichButCheap := decide (fund.pbr < 1 ∧ fund.div > 3) }

/-- Contribution of one boolean indicator with its weight. -/
def indPts (b : Bool) (w : ℚ) : ℚ := if b then w else 0

/-- TempletonAnalyzer.calculatePessimismScore: weighted indicator sum capped
at 100. -/
def calculatePessimismScore (ind : Indicators) : ℚ :=
  min 100 (indPts ind.near52WeekLow 15 + indPts ind.down50PercentFromHigh 10 +
    indPts ind.veryLowPER 15 + indPts ind.deepValuePBR 15 + indPts ind.deepNegativeReturn 20 +
    indPts ind.exceptionalDividend 10 + indPts ind.extremeFear 10 + indPts ind.panicSelling 5 +
    indPts ind.profitableButCheap 5 + indPts ind.cashRichButCheap 5)

/-- PER-discount band of evaluateGlobalRelativeValue (30 points). -/
def gvPerPoints (per globalAvgPER : ℚ) : ℚ :=
  if per > 0 then
    if per < globalAvgPER * 0.5 then 30 else if per < globalAvgPER * 0.7 then 20
    else if per < globalAvgPER then 10 else 0
  else 0

/-- PBR-discount band of evaluateGlobalRelativeValue (25 points). -/
def gvPbrPoints (pbr globalAvgPBR : ℚ) : ℚ :=
  if pbr > 0 then
    if pbr < globalAvgPBR * 0.5 then 25 else if pbr < globalAvgPBR * 0.7 then 15
    else if pbr < globalAvgPBR then 10 else 0
  else 0

/-- Dividend band of evaluateGlobalRelativeValue (25 points). -/
def gvDivPoints (div globalAvgDiv : ℚ) : ℚ :=
  if div > globalAvgDiv * 2 then 25 else if div > globalAvgDiv * 1.5 then 15
  else if div > globalAvgDiv then 10 else 0

/-- TempletonAnalyzer.evaluateGlobalRelativeValue: discount versus assumed
global average PER, PBR and dividend yield, capped at 100. -/
def evaluateGlobalRelativeValue (fund : FinancialData) : ℚ :=
  let globalAvgPER : ℚ := 18
  let globalAvgPBR : ℚ := 2.0
  let globalAvgDiv : ℚ := 2.5
  min 100 (20 + gvPerPoints fund.per globalAvgPER + gvPbrPoints fund.pbr globalAvgPBR +
    gvDivPoints fund.div globalAvgDiv)

/-- Price-position band of analyzeCrisisOpportunity (40 points). -/
def coPricePoints (pricePosition : ℚ) : ℚ :=
  if pricePosition < 20 then 40 else if pricePosition < 30 then 25
  else if pricePosition < 40 then 15 else 0

/-- Pessimism band of analyzeCrisisOpportunity (30 points). -/
def coPessPoints (pessimismScore : ℚ) : ℚ :=
  if pessimismScore > 80 then 30 else if pessimismScore > 60 then 20
  else if pessimismScore > 40 then 10 else 0

/-- Year-return band of analyzeCrisisOpportunity (30 points). -/
def coReturnPoints (yearReturn : ℚ) : ℚ :=
  if yearReturn < -40 then 30 else if yearReturn < -25 then 20
  else if yearReturn < -10 then 10 else 0

/-- TempletonAnalyzer.analyzeCrisisOpportunity, capped at 100. -/
def analyzeCrisisOpportunity (md : Option MarketData) (pricePosition pessimismScore : ℚ) : ℚ :=
  min 100 (coPricePoints pricePosition + coPessPoints pessimismScore +
    coReturnPoints (yearReturnOf md))

/-- Sustained-earnings-decline penalty of assessValueTrapRisk (30 points). -/
def vtrDeclinePoints (history : List FinancialData) : ℚ :=
  if history.length ≥ 3 then
    if history.headI.eps < (history.getD 1 default).eps ∧
        (history.getD 1 default).eps < (history.getD 2 default).eps then 30 else 0
  else 0

/-- TempletonAnalyzer.assessValueTrapRisk, capped at 100. -/
def assessValueTrapRisk (fund : FinancialData) (history : List FinancialData) : ℚ :=
  min 100 (vtrDeclinePoints history + (if fund.eps ≤ 0 then (25 : ℚ) else 0) +
    (if fund.pbr < 0.5 then (15 : ℚ) else 0) + (if fund.per < 0 then (20 : ℚ) else 0) +
    (if fund.div > 8 then (10 : ℚ) else 0))

/-- Cycle-phase ladder over price position and year return. -/
def cyclePoints (pricePosition yearReturn : ℚ) : ℚ :=
  if pricePosition < 25 ∧ yearReturn < -20 then 100
  else if pricePosition < 40 ∧ yearReturn < 0 then 80
  else if pricePosition < 60 ∧ yearReturn < 10 then 60
  else if pricePosition < 80 ∧ yearReturn < 20 then 40
  else 20

/-- Cycle score of TempletonAnalyzer.identifyMarketCycle (the phase label is
a display string and is omitted). -/
def identifyMarketCycleScore (pricePosition : ℚ) (md : Option MarketData) : ℚ :=
  cyclePoints pricePosition (yearReturnOf md)

/-- TempletonAnalyzer.calculateTempletonFairValue: EPS times a base PER of 12
scaled up by pessimism, down by value-trap risk and up by global value. -/
def calculateTempletonFairValue (fund : FinancialData)
    (pessimismScore valueTrapRisk globalValue : ℚ) : ℚ :=
  let basePER : ℚ :=
    if pessimismScore > 80 then 18 else if pessimismScore > 60 then 15
    else if pessimismScore > 40 then 13 else 12
  let basePER := if valueTrapRisk > 70 then basePER * 0.7
    else if valueTrapRisk > 50 then basePER * 0.85 else basePER
  let basePER := if globalValue > 70 then basePER * 1.2
    else if globalValue > 50 then basePER * 1.1 else basePER
  jsRound (fund.eps * basePER)

/-- TempletonAnalyzer.calculateTempletonScore: 100-point weighted composite. -/
def calculateTempletonScore (pessimismScore globalValue crisisOpportunity valueTrapRisk
    cycleScore : ℚ) : ℚ :=
  jsRound (pessimismScore * 0.35 + globalValue * 0.2 + crisisOpportunity * 0.2 +
    (100 - valueTrapRisk) * 0.15 + cycleScore * 0.1)

/-- Pessimism band of evaluateEntryTiming (40 points). -/
def etPessPoints (pessimismScore : ℚ) : ℚ :=
  if pessimismScore > 70 then 40 else if pessimismScore > 50 then 25
  else if pessimismScore > 30 then 15 else 0

/-- Extreme-indicator band of evaluateEntryTiming (20 points). -/
def etIndicatorPoints (ind : Indicators) : ℚ :=
  if ind.panicSelling then 20 else if ind.extremeFear then 15
  else if ind.near52WeekLow then 10 else 0

/-- TempletonAnalyzer.evaluateEntryTiming, capped at 100. -/
def evaluateEntryTiming (pessimismScore : ℚ) (cycleScore : ℚ) (ind : Indicators) : ℚ :=
  min 100 (etPessPoints pessimismScore + cycleScore * 0.3 + etIndicatorPoints ind)

/-- TempletonAnalyzer.getTempletonRecommendation. -/
def getTempletonRecommendation (pessimismScore templetonScore valueTrapRisk entryTiming : ℚ) :
    Rec :=
  if templetonScore > 75 ∧ pessimismScore > 70 ∧ valueTrapRisk < 40 then .strongBuy
  else if templetonScore > 60 ∧ pessimismScore > 50 ∧ valueTrapRisk < 50 then .buy
  else if templetonScore > 40 ∨ entryTiming > 40 then .hold
  else if templetonScore > 20 then .sell
  else .strongSell

/-- Result record of TempletonAnalyzer.analyze (string diagnostics omitted). -/
structure Analysis where
  fairValue : ℚ
  recommendation : Rec
  pricePosition52Week : ℚ
  pessimismScore : ℚ
  valueTrapRisk : ℚ
  templetonScore : ℚ
  deriving DecidableEq, Repr

/-- TempletonAnalyzer.analyze (part of the repository sources). -/
def analyze (s : Snapshot) : Analysis :=
  let currentFund := s.financialData.headI
  let financialHistory := s.financialData
  let currentPrice := cpOf s.marketData
  let pricePosition := calculate52WeekPosition s.marketData
  let contrarianIndicators := evaluateContrarianIndicators currentFund s.marketData
    pricePosition
  let pessimismScore := calculatePessimismScore contrarianIndicators
  let globalValue := evaluateGlobalRelativeValue currentFund
  let crisisOpportunity := analyzeCrisisOpportunity s.marketData pricePosition pessimismScore
  let valueTrapRisk := assessValueTrapRisk currentFund financialHistory
  let cycleScore := identifyMarketCycleScore pricePosition s.marketData
  let fairValue := calculateTempletonFairValue currentFund pessimismScore valueTrapRisk
    globalValue
  let _upside := BaseAnalyzer.calculateUpside fairValue currentPrice
  let templetonScore := calculateTempletonScore pessimismScore globalValue crisisOpportunity
    valueTrapRisk cycleScore
  let entryTiming := evaluateEntryTiming pessimismScore cycleScore contrarianIndicators
  { fairValue := fairValue
  , recommendation := getTempletonRecommendation pessimismScore templetonScore valueTrapRisk
      entryTiming
  , pricePosition52Week := pricePosition
  , pessimismScore := pessimismScore
  , valueTrapRisk := valueTrapRisk
  , templetonScore := templetonScore }

end Templeton

/-- The per-strategy fair values stored in data.valuations, as read by the
consensus aggregator through the optional-chain data.valuations.X?.fairValue;
none models an absent strategy result. -/
structure Valuations where
  buffett : Option ℚ
  lynch : Option ℚ
  graham : Option ℚ
  greenblatt : Option ℚ
  fisher : Option ℚ
  templeton : Option ℚ
  deriving DecidableEq, Repr

/-- One conditional push in calculateComprehensiveValuation: the pair of
fair value and nominal weight is appended exactly when the optional-chained
fairValue is truthy (present and nonzero). -/
def pick (o : Option ℚ) (w : ℚ) : List (ℚ × ℚ) :=
  match o with
  | none => []
  | some v => if v = 0 then [] else [(v, w)]

/-- The parallel fairValues and weights arrays built by
calculateComprehensiveValuation, in source order with the nominal weights
Buffett 0.20, Lynch 0.15, Graham 0.20, Greenblatt 0.15, Fisher 0.15,
Templeton 0.15. -/
def contributions (v : Valuations) : List (ℚ × ℚ) :=
  pick v.buffett 0.20 ++ pick v.lynch 0.15 ++ pick v.graham 0.20 ++
  pick v.greenblatt 0.15 ++ pick v.fisher 0.15 ++ pick v.templeton 0.15

/-- GuruAnalyzers.median: sorted-array midpoint; for an even count, the
rounded average of the two middle values.  The JS comparator (a, b) => a - b
is an ascending stable sort, modelled by insertion sort. -/
def median (values : List ℚ) : ℚ :=
  let sorted := values.insertionSort (· ≤ ·)
  let mid := sorted.length / 2
  if sorted.length % 2 = 1 then sorted.getD mid 0
  else jsRound ((sorted.getD (mid - 1) 0 + sorted.getD mid 0) / 2)

/-- GuruAnalyzers.calculateUpside (src/src/analyzers/index.ts): two-decimal
rounded percentage upside, 0 instead of dividing when currentPrice <= 0. -/
def GuruAnalyzers.calculateUpside (fairValue currentPrice : ℚ) : ℚ :=
  if currentPrice ≤ 0 then 0
  else jsRound (((fairValue - currentPrice) / currentPrice) * 100 * 100) / 100

/-- The comprehensiveValuation record. -/
structure ComprehensiveValuation where
  weightedAverage : ℚ
  median : ℚ
  conservative : ℚ
  optimistic : ℚ
  currentPrice : ℚ
  upsideWeighted : ℚ
  upsideMedian : ℚ
  upsideConservative : ℚ
  upsideOptimistic : ℚ
  deriving DecidableEq, Repr

/-- GuruAnalyzers.calculateComprehensiveValuation: none models the source
leaving data.comprehensiveValuation unset when no fair value contributed. -/
def calculateComprehensiveValuation (v : Valuations) (md : Option MarketData) :
    Option ComprehensiveValuation :=
  let fw := contributions v
  if fw = [] then none
  else
    let fairValues := fw.map Prod.fst
    let weights := fw.map Prod.snd
    let weightedSum := (fw.map (fun p => p.1 * p.2)).sum
    let totalWeight := weights.sum
    let weightedAverage := jsRound (weightedSum / totalWeight)
    let currentPrice := cpOf md
    some
      { weightedAverage := weightedAverage
      , median := median fairValues
      , conservative := listMin fairValues
      , optimistic := listMax fairValues
      , currentPrice := currentPrice
      , upsideWeighted := GuruAnalyzers.calculateUpside weightedAverage currentPrice
      , upsideMedian := GuruAnalyzers.calculateUpside (median fairValues) currentPrice
      , upsideConservative := GuruAnalyzers.calculateUpside (listMin fairValues) currentPrice
      , upsideOptimistic := GuruAnalyzers.calculateUpside (listMax fairValues) currentPrice }

/-- Combined output of GuruAnalyzers.analyzeAll: the six strategy results
plus the derived consensus. -/
structure AnalyzeAllResult where
  buffett : Buffett.Analysis
  lynch : Lynch.Analysis
  graham : Graham.Analysis
  greenblatt : Greenblatt.Analysis
  fisher : Fisher.Analysis
  templeton : Templeton.Analysis
  comprehensiveValuation : Option ComprehensiveValuation
  deriving DecidableEq, Repr

/-- The valuations record as populated by GuruAnalyzers.analyzeAll: all six
strategies present. -/
def valuationsOf (r : AnalyzeAllResult) : Valuations :=
  { buffett := some r.buffett.fairValue
  , lynch := some r.lynch.fairValue
  , graham := some r.graham.fairValue
  , greenblatt := some r.greenblatt.fairValue
  , fisher := some r.fisher.fairValue
  , templeton := some r.templeton.fairValue }

/-- GuruAnalyzers.analyzeAll (src/src/analyzers/index.ts): run the six
strategies on the snapshot and derive the consensus valuation. -/
def analyzeAll (root : Root) (s : Snapshot) : AnalyzeAllResult :=
  let buffettResult := Buffett.analyze root s
  let lynchResult := Lynch.analyze root s
  let grahamResult := Graham.analyze s
  let greenblattResult := Greenblatt.analyze s
  let fisherResult := Fisher.analyze root s
  let templetonResult := Templeton.analyze s
  let v : Valuations :=
    { buffett := some buffettResult.fairValue
    , lynch := some lynchResult.fairValue
    , graham := some grahamResult.fairValue
    , greenblatt := some greenblattResult.fairValue
    , fisher := some fisherResult.fairValue
    , templeton := some templetonResult.fairValue }
  { buffett := buffettResult
  , lynch := lynchResult
  , graham := grahamResult
  , greenblatt := greenblattResult
  , fisher := fisherResult
  , templeton := templetonResult
  , comprehensiveValuation := calculateComprehensiveValuation v s.marketData }

/-- The basic market payload consumed by the analyze_equity gate in
src/src/server.ts: an optional upstream error message and the optional
integer close price produced by the price adapters. -/
structure BasicMarketData where
  errorMsg : Option String
  currentPrice : Option ℕ
  marketCap : Option ℕ
  volume : Option ℕ
  deriving DecidableEq, Repr

/-- The numeric core of the quick-analysis report built by analyzeEquity. -/
structure QuickValuation where
  fairValue : ℚ
  upside : ℚ
  deriving DecidableEq, Repr

/-- The analyze_equity handler of src/src/server.ts (lines 228 to 288):
fails fatally when the market payload carries an error or when no positive
current price was obtained; otherwise produces the quick valuation from the
(possibly empty, hence defaulted) financial records.  The valuation stage is
never reached on the error path. -/
def analyzeEquity (marketData : Option BasicMarketData) (financialData : List FinancialData) :
    Except String QuickValuation :=
  if ((match marketData with
      | some m => m.errorMsg.any (fun e => !e.isEmpty)
      | none => false) : Bool) then
    Except.error "market data fetch failed"
  else
    match marketData.bind (fun m => m.currentPrice) with
    | none => Except.error "cannot obtain a current price for the ticker"
    | some p =>
        if p = 0 then Except.error "cannot obtain a current price for the ticker"
        else
          let currentPrice : ℚ := p
          let fund := financialData.head?
          let actualPER := jsOr (match fund with | some f => f.per | none => 0) 15
          let eps := jsOr (match fund with | some f => f.eps | none => 0) (currentPrice / 15)
          let fairValue := eps * actualPER
          let upside := if currentPrice > 0 then ((fairValue - currentPrice) / currentPrice) * 100
            else 0
          Except.ok { fairValue := fairValue, upside := upside }

/-! Generic facts about the JS arithmetic helpers. -/

theorem jsRound_le_jsRound {a b : ℚ} (h : a ≤ b) : jsRound a ≤ jsRound b := by
  unfold jsRound
  exact_mod_cast Int.floor_le_floor (by linarith)

theorem jsRound_nonneg {q : ℚ} (h : 0 ≤ q) : 0 ≤ jsRound q := by
  unfold jsRound
  exact_mod_cast Int.floor_nonneg.mpr (by linarith)

theorem jsRound_le_intCast {q : ℚ} {z : ℤ} (h : q ≤ z) : jsRound q ≤ (z : ℚ) := by
  unfold jsRound
  have h2 : ⌊q + 1 / 2⌋ < z + 1 := Int.floor_lt.mpr (by push_cast; linarith)
  exact_mod_cast Int.lt_add_one_iff.mp h2

theorem intCast_le_jsRound {z : ℤ} {q : ℚ} (h : (z : ℚ) ≤ q) : (z : ℚ) ≤ jsRound q := by
  unfold jsRound
  exact_mod_cast Int.le_floor.mpr (by linarith)

theorem jsRound_den {q : ℚ} : (jsRound q).den = 1 := Rat.den_intCast _

theorem foldl_min_le : ∀ (t : List ℚ) (a : ℚ),
    t.foldl min a ≤ a ∧ ∀ x ∈ t, t.foldl min a ≤ x := by
  intro t
  induction t with
  | nil => intro a; exact ⟨le_refl a, by simp⟩
  | cons b t ih =>
    intro a
    refine ⟨(ih (min a b)).1.trans (min_le_left a b), ?_⟩
    intro x hx
    rcases List.mem_cons.mp hx with rfl | hx
    · exact (ih (min a x)).1.trans (min_le_right a x)
    · exact (ih (min a b)).2 x hx

theorem le_foldl_max : ∀ (t : List ℚ) (a : ℚ),
    a ≤ t.foldl max a ∧ ∀ x ∈ t, x ≤ t.foldl max a := by
  intro t
  induction t with
  | nil => intro a; exact ⟨le_refl a, by simp⟩
  | cons b t ih =>
    intro a
    refine ⟨(le_max_left a b).trans (ih (max a b)).1, ?_⟩
    intro x hx
    rcases List.mem_cons.mp hx with rfl | hx
    · exact (le_max_right a x).trans (ih (max a x)).1
    · exact (ih (max a b)).2 x hx

theorem listMin_le_of_mem {l : List ℚ} {x : ℚ} (hx : x ∈ l) : listMin l ≤ x := by
  match l, hx with
  | a :: t, hx =>
    rcases List.mem_cons.mp hx with rfl | hmem
    · exact (foldl_min_le t x).1
    · exact (foldl_min_le t a).2 x hmem

theorem le_listMax_of_mem {l : List ℚ} {x : ℚ} (hx : x ∈ l) : x ≤ listMax l := by
  match l, hx with
  | a :: t, hx =>
    rcases List.mem_cons.mp hx with rfl | hmem
    · exact (le_foldl_max t x).1
    · exact (le_foldl_max t a).2 x hmem

theorem foldl_min_mem : ∀ (t : List ℚ) (a : ℚ), t.foldl min a = a ∨ t.foldl min a ∈ t := by
  intro t
  induction t with
  | nil => intro a; exact Or.inl rfl
  | cons b t ih =>
    intro a
    have hstep : (b :: t).foldl min a = t.foldl min (min a b) := rfl
    rw [hstep]
    rcases ih (min a b) with h | h
    · rcases min_choice a b with hab | hab
      · exact Or.inl (h.trans hab)
      · exact Or.inr (List.mem_cons.mpr (Or.inl (h.trans hab)))
    · exact Or.inr (List.mem_cons.mpr (Or.inr h))

theorem listMin_mem : ∀ {l : List ℚ}, l ≠ [] → listMin l ∈ l := by
  intro l hl
  match l, hl with
  | a :: t, _ =>
    rcases foldl_min_mem t a with h | h
    · exact List.mem_cons.mpr (Or.inl h)
    · exact List.mem_cons.mpr (Or.inr h)

theorem getD_eq_get {l : List ℚ} {n : ℕ} (h : n < l.length) (d : ℚ) :
    l.getD n d = l.get ⟨n, h⟩ := by
  simp [List.getD_eq_getElem?_getD, List.getElem?_eq_getElem h]

theorem intCast_le_jsRound_of_half {z : ℤ} {q : ℚ} (h : (z : ℚ) ≤ q + 1 / 2) :
    (z : ℚ) ≤ jsRound q := by
  unfold jsRound
  exact_mod_cast Int.le_floor.mpr h

theorem jsRound_le_intCast_of_half {q : ℚ} {z : ℤ} (h : q < (z : ℚ) + 1 / 2) :
    jsRound q ≤ (z : ℚ) := by
  unfold jsRound
  have h2 : ⌊q + 1 / 2⌋ < z + 1 := Int.floor_lt.mpr (by push_cast; linarith)
  exact_mod_cast Int.lt_add_one_iff.mp h2

theorem two_le_countP_of_getD {p : ℚ → Bool} :
    ∀ (S : List ℚ) (i j : ℕ), i < j → j < S.length →
      p (S.getD i 0) = true → p (S.getD j 0) = true → 2 ≤ S.countP p := by
  intro S
  induction S with
  | nil => intro i j _ hj; simp at hj
  | cons x T ih =>
    intro i j hij hj hpi hpj
    match j, hj with
    | j + 1, hj =>
      have hjT : j < T.length := by simpa using hj
      have hpjT : p (T.getD j 0) = true := by simpa using hpj
      match i with
      | 0 =>
        have hpx : p x = true := by simpa using hpi
        have h1 : 0 < T.countP p := by
          refine List.countP_pos_iff.mpr ⟨T.getD j 0, ?_, hpjT⟩
          rw [getD_eq_get hjT]
          exact List.get_mem T j hjT
        simp only [List.countP_cons, hpx, if_pos]
        omega
      | i + 1 =>
        have h2 := ih i j (by omega) hjT (by simpa using hpi) hpjT
        rw [List.countP_cons]
        omega

/-- Ordering of the consensus median between the minimum and the maximum of a
non-empty fair-value list, provided at most one member is a non-integer (all
strategy fair values except the Graham one are Math.round images, hence
integers). -/
theorem listMin_le_median_le_listMax (l : List ℚ) (hne : l ≠ [])
    (hint : l.countP (fun x => decide (x.den ≠ 1)) ≤ 1) :
    listMin l ≤ median l ∧ median l ≤ listMax l := by
  have hperm : List.Perm (l.insertionSort (· ≤ ·)) l := List.perm_insertionSort _ l
  have hsort : (l.insertionSort (· ≤ ·)).Sorted (· ≤ ·) := List.sorted_insertionSort _ l
  have hlen : (l.insertionSort (· ≤ ·)).length = l.length := hperm.length_eq
  have hSpos : 0 < (l.insertionSort (· ≤ ·)).length := by
    rw [hlen]
    exact List.length_pos.mpr hne
  simp only [median]
  by_cases hpar : (l.insertionSort (· ≤ ·)).length % 2 = 1
  · rw [if_pos hpar]
    have hmid : (l.insertionSort (· ≤ ·)).length / 2 < (l.insertionSort (· ≤ ·)).length :=
      Nat.div_lt_self hSpos (by norm_num)
    have hm : (l.insertionSort (· ≤ ·)).getD ((l.insertionSort (· ≤ ·)).length / 2) 0 ∈ l := by
      refine hperm.mem_iff.mp ?_
      rw [getD_eq_get hmid]
      exact List.get_mem _ _ hmid
    exact ⟨listMin_le_of_mem hm, le_listMax_of_mem hm⟩
  · rw [if_neg hpar]
    have hk1 : 1 ≤ (l.insertionSort (· ≤ ·)).length / 2 := by omega
    have hak : (l.insertionSort (· ≤ ·)).length / 2 - 1 < (l.insertionSort (· ≤ ·)).length := by
      omega
    have hbk : (l.insertionSort (· ≤ ·)).length / 2 < (l.insertionSort (· ≤ ·)).length := by
      omega
    set S := l.insertionSort (· ≤ ·) with hS
    set k := S.length / 2 with hk
    set a := S.getD (k - 1) 0 with ha
    set b := S.getD k 0 with hb
    have hamem : a ∈ l := by
      refine hperm.mem_iff.mp ?_
      rw [ha, getD_eq_get hak]
      exact List.get_mem _ _ hak
    have hbmem : b ∈ l := by
      refine hperm.mem_iff.mp ?_
      rw [hb, getD_eq_get hbk]
      exact List.get_mem _ _ hbk
    have hab : a ≤ b := by
      have hfin : (⟨k - 1, hak⟩ : Fin S.length) < ⟨k, hbk⟩ := by
        simp only [Fin.mk_lt_mk]
        omega
      have := hsort.rel_get_of_lt hfin
      rw [ha, hb, getD_eq_get hak, getD_eq_get hbk]
      exact this
    have hnotboth : a.den = 1 ∨ b.den = 1 := by
      by_contra hcon
      push_neg at hcon
      have hcount : (2 : ℕ) ≤ S.countP (fun x => decide (x.den ≠ 1)) := by
        refine two_le_countP_of_getD S (k - 1) k (by omega) hbk ?_ ?_
        · rw [← ha]; simpa using hcon.1
        · rw [← hb]; simpa using hcon.2
      have heq : S.countP (fun x => decide (x.den ≠ 1)) =
          l.countP (fun x => decide (x.den ≠ 1)) := hperm.countP_eq _
      omega
    constructor
    · rcases em (a.den = 1) with hden | hden
      · have hanum : (a.num : ℚ) = a := (Rat.den_eq_one_iff a).mp hden
        have hstep : (a.num : ℚ) ≤ jsRound ((a + b) / 2) :=
          intCast_le_jsRound_of_half (by rw [hanum]; linarith)
        calc listMin l ≤ a := listMin_le_of_mem hamem
          _ = (a.num : ℚ) := hanum.symm
          _ ≤ jsRound ((a + b) / 2) := hstep
      · have hbden : b.den = 1 := hnotboth.resolve_left hden
        have hbnum : (b.num : ℚ) = b := (Rat.den_eq_one_iff b).mp hbden
        have hfa : (⌊a⌋ : ℚ) < a := by
          refine lt_of_le_of_ne (Int.floor_le a) ?_
          intro heq
          exact hden (by rw [← heq]; exact Rat.den_intCast _)
        have hzb : ((⌊a⌋ + 1 : ℤ) : ℚ) ≤ b := by
          have h1 : (⌊a⌋ : ℚ) < (b.num : ℚ) := by rw [hbnum]; exact lt_of_lt_of_le hfa hab
          have h2 : ⌊a⌋ + 1 ≤ b.num := Int.add_one_le_iff.mpr (by exact_mod_cast h1)
          rw [← hbnum]
          exact_mod_cast h2
        have hstep : ((⌊a⌋ + 1 : ℤ) : ℚ) ≤ jsRound ((a + b) / 2) := by
          refine intCast_le_jsRound_of_half ?_
          push_cast
          push_cast at hzb
          linarith
        calc listMin l ≤ a := listMin_le_of_mem hamem
          _ ≤ ((⌊a⌋ + 1 : ℤ) : ℚ) := by push_cast; linarith [Int.lt_floor_add_one a]
          _ ≤ jsRound ((a + b) / 2) := hstep
    · rcases em (b.den = 1) with hden | hden
      · have hbnum : (b.num : ℚ) = b := (Rat.den_eq_one_iff b).mp hden
        have hstep : jsRound ((a + b) / 2) ≤ (b.num : ℚ) :=
          jsRound_le_intCast_of_half (by rw [hbnum]; linarith)
        calc jsRound ((a + b) / 2) ≤ (b.num : ℚ) := hstep
          _ = b := hbnum
          _ ≤ listMax l := le_listMax_of_mem hbmem
      · have haden : a.den = 1 := by
          rcases hnotboth with h | h
          · exact h
          · exact absurd h hden
        have hanum : (a.num : ℚ) = a := (Rat.den_eq_one_iff a).mp haden
        have hfb : b < (⌊b⌋ : ℚ) + 1 := Int.lt_floor_add_one b
        have hzab : (a.num : ℚ) ≤ (⌊b⌋ : ℚ) := by
          have h1 : a.num ≤ ⌊b⌋ := Int.le_floor.mpr (by rw [hanum]; exact hab)
          exact_mod_cast h1
        have hstep : jsRound ((a + b) / 2) ≤ ((⌊b⌋ : ℤ) : ℚ) := by
          refine jsRound_le_intCast_of_half ?_
          rw [← hanum] at hab
          push_cast at hzab
          linarith
        calc jsRound ((a + b) / 2) ≤ (⌊b⌋ : ℚ) := hstep
          _ ≤ b := Int.floor_le b
          _ ≤ listMax l := le_listMax_of_mem hbmem

/-- Every Rec value belongs to the five-element recommendation enumeration. -/
theorem rec_mem_all (r : Rec) :
    r ∈ [Rec.strongBuy, Rec.buy, Rec.hold, Rec.sell, Rec.strongSell] := by
  cases r <;> simp

theorem calculateGreenblattFairValue_le_cap (fund : FinancialData) (roic cp : ℚ)
    (h : 0 ≤ cp) :
    Greenblatt.calculateGreenblattFairValue fund roic cp ≤ jsRound (3 * cp) := by
  simp only [Greenblatt.calculateGreenblattFairValue]
  split_ifs with h1
  · exact jsRound_le_jsRound (by linarith)
  · push_neg at h1
    exact jsRound_le_jsRound (by linarith)

/-! Score bounds for the six strategies, over arbitrary metric inputs. -/

theorem jsRound_bounds_100 {q : ℚ} (h0 : 0 ≤ q) (h1 : q ≤ 100) :
    0 ≤ jsRound q ∧ jsRound q ≤ 100 := by
  refine ⟨jsRound_nonneg h0, ?_⟩
  have h2 : jsRound q ≤ ((100 : ℤ) : ℚ) := jsRound_le_intCast (by exact_mod_cast h1)
  exact_mod_cast h2

theorem indPts_bounds (b : Bool) {w : ℚ} (hw : 0 ≤ w) :
    0 ≤ Templeton.indPts b w ∧ Templeton.indPts b w ≤ w := by
  cases b <;> simp [Templeton.indPts, hw]

theorem buffettQualityScore_bounds (roe debtToEquity fcfYield netMargin grossMargin
    currentRatio retainedEarningsGrowth : ℚ) :
    0 ≤ Buffett.calculateBuffettQualityScore roe debtToEquity fcfYield netMargin grossMargin
        currentRatio retainedEarningsGrowth ∧
      Buffett.calculateBuffettQualityScore roe debtToEquity fcfYield netMargin grossMargin
        currentRatio retainedEarningsGrowth ≤ 100 := by
  have h1 : 0 ≤ Buffett.roePoints roe ∧ Buffett.roePoints roe ≤ 30 := by
    unfold Buffett.roePoints; split_ifs <;> norm_num
  have h2 : 0 ≤ Buffett.debtPoints debtToEquity ∧ Buffett.debtPoints debtToEquity ≤ 20 := by
    unfold Buffett.debtPoints; split_ifs <;> norm_num
  have h3 : 0 ≤ Buffett.fcfYieldPoints fcfYield ∧ Buffett.fcfYieldPoints fcfYield ≤ 15 := by
    unfold Buffett.fcfYieldPoints; split_ifs <;> norm_num
  have h4 : 0 ≤ Buffett.netMarginPoints netMargin ∧ Buffett.netMarginPoints netMargin ≤ 15 := by
    unfold Buffett.netMarginPoints; split_ifs <;> norm_num
  have h5 : 0 ≤ Buffett.grossMarginPoints grossMargin ∧
      Buffett.grossMarginPoints grossMargin ≤ 10 := by
    unfold Buffett.grossMarginPoints; split_ifs <;> norm_num
  have h6 : 0 ≤ Buffett.currentRatioPoints currentRatio ∧
      Buffett.currentRatioPoints currentRatio ≤ 5 := by
    unfold Buffett.currentRatioPoints; split_ifs <;> norm_num
  have h7 : 0 ≤ Buffett.regPoints retainedEarningsGrowth ∧
      Buffett.regPoints retainedEarningsGrowth ≤ 5 := by
    unfold Buffett.regPoints; split_ifs <;> norm_num
  unfold Buffett.calculateBuffettQualityScore
  constructor <;> linarith [h1.1, h1.2, h2.1, h2.2, h3.1, h3.2, h4.1, h4.2, h5.1, h5.2,
    h6.1, h6.2, h7.1, h7.2]

theorem lynchScore_bounds (peg dPeg g sg de : ℚ) (ct : Lynch.CompanyType) :
    0 ≤ Lynch.calculateLynchScore peg dPeg g sg de ct ∧
      Lynch.calculateLynchScore peg dPeg g sg de ct ≤ 100 := by
  have h1 : 0 ≤ Lynch.pegPoints peg ∧ Lynch.pegPoints peg ≤ 40 := by
    unfold Lynch.pegPoints; split_ifs <;> norm_num
  have h2 : 0 ≤ Lynch.dividendPegPoints dPeg ∧ Lynch.dividendPegPoints dPeg ≤ 20 := by
    unfold Lynch.dividendPegPoints; split_ifs <;> norm_num
  have h3 : 0 ≤ Lynch.growthPoints g ∧ Lynch.growthPoints g ≤ 15 := by
    unfold Lynch.growthPoints; split_ifs <;> norm_num
  have h4 : 0 ≤ Lynch.salesPoints sg ∧ Lynch.salesPoints sg ≤ 10 := by
    unfold Lynch.salesPoints; split_ifs <;> norm_num
  have h5 : 0 ≤ Lynch.leveragePoints de ∧ Lynch.leveragePoints de ≤ 10 := by
    unfold Lynch.leveragePoints; split_ifs <;> norm_num
  have h6 : 0 ≤ Lynch.typePoints ct ∧ Lynch.typePoints ct ≤ 5 := by
    cases ct <;> simp [Lynch.typePoints]
  unfold Lynch.calculateLynchScore
  constructor <;> linarith [h1.1, h1.2, h2.1, h2.2, h3.1, h3.2, h4.1, h4.2, h5.1, h5.2,
    h6.1, h6.2]

theorem grahamScore_bounds (mos ncav : ℚ) (d e : ℕ) (cp gn : ℚ)
    (hd : d ≤ 7) (he : e ≤ 5) :
    0 ≤ Graham.calculateGrahamScore mos ncav d e cp gn ∧
      Graham.calculateGrahamScore mos ncav d e cp gn ≤ 100 := by
  have hdq : (d : ℚ) ≤ 7 := by exact_mod_cast hd
  have heq : (e : ℚ) ≤ 5 := by exact_mod_cast he
  have hdq0 : (0 : ℚ) ≤ (d : ℚ) := by positivity
  have heq0 : (0 : ℚ) ≤ (e : ℚ) := by positivity
  have h1 : 0 ≤ Graham.mosPoints mos ∧ Graham.mosPoints mos ≤ 30 := by
    unfold Graham.mosPoints; split_ifs <;> norm_num
  have h2 : 0 ≤ Graham.ncavPoints ncav ∧ Graham.ncavPoints ncav ≤ 25 := by
    unfold Graham.ncavPoints; split_ifs <;> norm_num
  have h3 : 0 ≤ Graham.gnPoints cp gn ∧ Graham.gnPoints cp gn ≤ 20 := by
    unfold Graham.gnPoints; split_ifs <;> norm_num
  unfold Graham.calculateGrahamScore
  refine jsRound_bounds_100 (by linarith [h1.1, h2.1, h3.1]) ?_
  have : (d : ℚ) * 2.14 ≤ 14.98 := by linarith
  linarith [h1.2, h2.2, h3.2]

theorem greenblattQualityMetricsScore_bounds (fund : FinancialData) :
    0 ≤ Greenblatt.qualityMetricsScore fund ∧ Greenblatt.qualityMetricsScore fund ≤ 100 := by
  unfold Greenblatt.qualityMetricsScore
  have hc : ([ decide (fund.eps > 0), decide (fund.per > 0 ∧ fund.per < 20)
             , decide (fund.pbr > 0 ∧ fund.pbr < 3), decide (fund.div > 0), true ] :
      List Bool).countP id ≤ 5 := by
    have h1 : ([ decide (fund.eps > 0), decide (fund.per > 0 ∧ fund.per < 20)
               , decide (fund.pbr > 0 ∧ fund.pbr < 3), decide (fund.div > 0), true ] :
        List Bool).countP id ≤ ([ decide (fund.eps > 0), decide (fund.per > 0 ∧ fund.per < 20)
               , decide (fund.pbr > 0 ∧ fund.pbr < 3), decide (fund.div > 0), true ] :
        List Bool).length := List.countP_le_length id
    simpa using h1
  constructor
  · positivity
  · have h5 : (([ decide (fund.eps > 0), decide (fund.per > 0 ∧ fund.per < 20)
              , decide (fund.pbr > 0 ∧ fund.pbr < 3), decide (fund.div > 0), true ] :
        List Bool).countP id : ℚ) ≤ 5 := by exact_mod_cast hc
    linarith

theorem greenblattComprehensiveScore_bounds (m cr q u : ℚ) (hq0 : 0 ≤ q) (hq1 : q ≤ 100) :
    0 ≤ Greenblatt.calculateComprehensiveScore m cr q u ∧
      Greenblatt.calculateComprehensiveScore m cr q u ≤ 100 := by
  have h1 : 0 ≤ Greenblatt.magicPoints m ∧ Greenblatt.magicPoints m ≤ 40 := by
    unfold Greenblatt.magicPoints; split_ifs <;> norm_num
  have h2 : 0 ≤ Greenblatt.rankPoints cr ∧ Greenblatt.rankPoints cr ≤ 30 := by
    unfold Greenblatt.rankPoints; split_ifs <;> norm_num
  have h3 : 0 ≤ Greenblatt.upsidePoints u ∧ Greenblatt.upsidePoints u ≤ 10 := by
    unfold Greenblatt.upsidePoints; split_ifs <;> norm_num
  unfold Greenblatt.calculateComprehensiveScore
  exact jsRound_bounds_100 (by linarith [h1.1, h2.1, h3.1]) (by linarith [h1.2, h2.2, h3.2])

theorem fisherMqSum_bounds (roe div eps per pbr : ℚ) :
    0 ≤ Fisher.mqRoePoints roe + Fisher.mqDivPoints div + Fisher.mqProfitPoints eps per +
        Fisher.mqFinPoints pbr ∧
      Fisher.mqRoePoints roe + Fisher.mqDivPoints div + Fisher.mqProfitPoints eps per +
        Fisher.mqFinPoints pbr ≤ 100 := by
  have h1 : 0 ≤ Fisher.mqRoePoints roe ∧ Fisher.mqRoePoints roe ≤ 40 := by
    unfold Fisher.mqRoePoints; split_ifs <;> norm_num
  have h2 : 0 ≤ Fisher.mqDivPoints div ∧ Fisher.mqDivPoints div ≤ 20 := by
    unfold Fisher.mqDivPoints; split_ifs <;> norm_num
  have h3 : 0 ≤ Fisher.mqProfitPoints eps per ∧ Fisher.mqProfitPoints eps per ≤ 20 := by
    unfold Fisher.mqProfitPoints; split_ifs <;> norm_num
  have h4 : 0 ≤ Fisher.mqFinPoints pbr ∧ Fisher.mqFinPoints pbr ≤ 20 := by
    unfold Fisher.mqFinPoints; split_ifs <;> norm_num
  constructor
  · linarith [h1.1, h2.1, h3.1, h4.1]
  · linarith [h1.2, h2.2, h3.2, h4.2]

theorem fisherManagementQuality_bounds (s : Snapshot) :
    0 ≤ Fisher.evaluateManagementQuality s ∧ Fisher.evaluateManagementQuality s ≤ 100 := by
  unfold Fisher.evaluateManagementQuality
  exact fisherMqSum_bounds _ _ _ _ _

theorem fisherInnovationPoints_bounds (rd : ℚ) :
    0 ≤ Fisher.innovationPoints rd ∧ Fisher.innovationPoints rd ≤ 100 := by
  unfold Fisher.innovationPoints
  split_ifs <;> norm_num

theorem fisherInnovation_bounds (gm : Option GrowthMetrics) :
    0 ≤ Fisher.evaluateInnovation gm ∧ Fisher.evaluateInnovation gm ≤ 100 := by
  unfold Fisher.evaluateInnovation
  exact fisherInnovationPoints_bounds _

theorem fisherCaSum_bounds (mc roe per pbr : ℚ) :
    0 ≤ min (Fisher.caCapPoints mc + Fisher.caRoePoints roe + Fisher.caPerPoints per +
        Fisher.caPbrPoints pbr) 100 ∧
      min (Fisher.caCapPoints mc + Fisher.caRoePoints roe + Fisher.caPerPoints per +
        Fisher.caPbrPoints pbr) 100 ≤ 100 := by
  have h1 : 0 ≤ Fisher.caCapPoints mc := by
    unfold Fisher.caCapPoints; split_ifs <;> norm_num
  have h2 : 0 ≤ Fisher.caRoePoints roe := by
    unfold Fisher.caRoePoints; split_ifs <;> norm_num
  have h3 : 0 ≤ Fisher.caPerPoints per := by
    unfold Fisher.caPerPoints; split_ifs <;> norm_num
  have h4 : 0 ≤ Fisher.caPbrPoints pbr := by
    unfold Fisher.caPbrPoints; split_ifs <;> norm_num
  exact ⟨le_min (by linarith) (by norm_num), min_le_right _ _⟩

theorem fisherCompetitiveAdvantage_bounds (s : Snapshot) :
    0 ≤ Fisher.evaluateCompetitiveAdvantage s ∧ Fisher.evaluateCompetitiveAdvantage s ≤ 100 := by
  unfold Fisher.evaluateCompetitiveAdvantage
  exact fisherCaSum_bounds _ _ _ _

theorem fisherLongTermPotential_bounds (g : Fisher.GrowthAnalysis) (innov comp : ℚ)
    (hi0 : 0 ≤ innov) (hi1 : innov ≤ 100) (hc0 : 0 ≤ comp) (hc1 : comp ≤ 100) :
    0 ≤ Fisher.evaluateLongTermPotential g innov comp ∧
      Fisher.evaluateLongTermPotential g innov comp ≤ 100 := by
  have h1 : 10 ≤ Fisher.ltpGrowthScore g.salesGrowth ∧
      Fisher.ltpGrowthScore g.salesGrowth ≤ 40 := by
    unfold Fisher.ltpGrowthScore; split_ifs <;> norm_num
  unfold Fisher.evaluateLongTermPotential
  exact jsRound_bounds_100 (by linarith [h1.1]) (by linarith [h1.2])

theorem fisherScore_bounds (cs : ℕ) (g : Fisher.GrowthAnalysis) (mq innov comp ltp : ℚ)
    (hcs : cs ≤ 15) (hmq0 : 0 ≤ mq) (hmq1 : mq ≤ 100) (hi0 : 0 ≤ innov) (hi1 : innov ≤ 100)
    (hc0 : 0 ≤ comp) (hc1 : comp ≤ 100) (hl0 : 0 ≤ ltp) (hl1 : ltp ≤ 100) :
    0 ≤ Fisher.calculateFisherScore cs g mq innov comp ltp ∧
      Fisher.calculateFisherScore cs g mq innov comp ltp ≤ 100 := by
  have hcsq : (cs : ℚ) ≤ 15 := by exact_mod_cast hcs
  have hcsq0 : (0 : ℚ) ≤ (cs : ℚ) := by positivity
  have h1 : 0 ≤ Fisher.fsGrowthPoints g.earningsGrowth ∧
      Fisher.fsGrowthPoints g.earningsGrowth ≤ 25 := by
    unfold Fisher.fsGrowthPoints; split_ifs <;> norm_num
  unfold Fisher.calculateFisherScore
  refine jsRound_bounds_100 ?_ ?_
  · have : (0 : ℚ) ≤ (cs : ℚ) / 15 * 40 := by positivity
    linarith [h1.1]
  · have : (cs : ℚ) / 15 * 40 ≤ 40 := by linarith
    linarith [h1.2]

theorem templetonPessimism_bounds (ind : Templeton.Indicators) :
    0 ≤ Templeton.calculatePessimismScore ind ∧ Templeton.calculatePessimismScore ind ≤ 100 := by
  unfold Templeton.calculatePessimismScore
  constructor
  · refine le_min (by norm_num) ?_
    have i1 := indPts_bounds ind.near52WeekLow (show (0:ℚ) ≤ 15 by norm_num)
    have i2 := indPts_bounds ind.down50PercentFromHigh (show (0:ℚ) ≤ 10 by norm_num)
    have i3 := indPts_bounds ind.veryLowPER (show (0:ℚ) ≤ 15 by norm_num)
    have i4 := indPts_bounds ind.deepValuePBR (show (0:ℚ) ≤ 15 by norm_num)
    have i5 := indPts_bounds ind.deepNegativeReturn (show (0:ℚ) ≤ 20 by norm_num)
    have i6 := indPts_bounds ind.exceptionalDividend (show (0:ℚ) ≤ 10 by norm_num)
    have i7 := indPts_bounds ind.extremeFear (show (0:ℚ) ≤ 10 by norm_num)
    have i8 := indPts_bounds ind.panicSelling (show (0:ℚ) ≤ 5 by norm_num)
    have i9 := indPts_bounds ind.profitableButCheap (show (0:ℚ) ≤ 5 by norm_num)
    have i10 := indPts_bounds ind.cashRichButCheap (show (0:ℚ) ≤ 5 by norm_num)
    linarith [i1.1, i2.1, i3.1, i4.1, i5.1, i6.1, i7.1, i8.1, i9.1, i10.1]
  · exact min_le_left _ _

theorem templetonGlobalValue_bounds (fund : FinancialData) :
    0 ≤ Templeton.evaluateGlobalRelativeValue fund ∧
      Templeton.evaluateGlobalRelativeValue fund ≤ 100 := by
  have h1 : ∀ x y : ℚ, 0 ≤ Templeton.gvPerPoints x y := by
    intro x y; unfold Templeton.gvPerPoints; split_ifs <;> norm_num
  have h2 : ∀ x y : ℚ, 0 ≤ Templeton.gvPbrPoints x y := by
    intro x y; unfold Templeton.gvPbrPoints; split_ifs <;> norm_num
  have h3 : ∀ x y : ℚ, 0 ≤ Templeton.gvDivPoints x y := by
    intro x y; unfold Templeton.gvDivPoints; split_ifs <;> norm_num
  unfold Templeton.evaluateGlobalRelativeValue
  constructor
  · exact le_min (by norm_num) (by linarith [h1 fund.per 18, h2 fund.pbr 2.0, h3 fund.div 2.5])
  · exact min_le_left _ _

theorem templetonCrisis_bounds (md : Option MarketData) (pp ps : ℚ) :
    0 ≤ Templeton.analyzeCrisisOpportunity md pp ps ∧
      Templeton.analyzeCrisisOpportunity md pp ps ≤ 100 := by
  have h1 : 0 ≤ Templeton.coPricePoints pp := by
    unfold Templeton.coPricePoints; split_ifs <;> norm_num
  have h2 : 0 ≤ Templeton.coPessPoints ps := by
    unfold Templeton.coPessPoints; split_ifs <;> norm_num
  have h3 : 0 ≤ Templeton.coReturnPoints (Templeton.yearReturnOf md) := by
    unfold Templeton.coReturnPoints; split_ifs <;> norm_num
  unfold Templeton.analyzeCrisisOpportunity
  exact ⟨le_min (by norm_num) (by linarith), min_le_left _ _⟩

theorem templetonValueTrap_bounds (fund : FinancialData) (history : List FinancialData) :
    0 ≤ Templeton.assessValueTrapRisk fund history ∧
      Templeton.assessValueTrapRisk fund history ≤ 100 := by
  have h1 : 0 ≤ Templeton.vtrDeclinePoints history := by
    unfold Templeton.vtrDeclinePoints; split_ifs <;> norm_num
  unfold Templeton.assessValueTrapRisk
  refine ⟨le_min (by norm_num) ?_, min_le_left _ _⟩
  split_ifs <;> linarith

theorem templetonCyclePoints_bounds (pp yr : ℚ) :
    0 ≤ Templeton.cyclePoints pp yr ∧ Templeton.cyclePoints pp yr ≤ 100 := by
  unfold Templeton.cyclePoints
  split_ifs <;> norm_num

theorem templetonCycleScore_bounds (pp : ℚ) (md : Option MarketData) :
    0 ≤ Templeton.identifyMarketCycleScore pp md ∧
      Templeton.identifyMarketCycleScore pp md ≤ 100 := by
  unfold Templeton.identifyMarketCycleScore
  exact templetonCyclePoints_bounds _ _

theorem templetonScore_bounds (p g c v cyc : ℚ) (hp0 : 0 ≤ p) (hp1 : p ≤ 100)
    (hg0 : 0 ≤ g) (hg1 : g ≤ 100) (hc0 : 0 ≤ c) (hc1 : c ≤ 100)
    (hv0 : 0 ≤ v) (hv1 : v ≤ 100) (hcy0 : 0 ≤ cyc) (hcy1 : cyc ≤ 100) :
    0 ≤ Templeton.calculateTempletonScore p g c v cyc ∧
      Templeton.calculateTempletonScore p g c v cyc ≤ 100 := by
  unfold Templeton.calculateTempletonScore
  exact jsRound_bounds_100 (by nlinarith) (by nlinarith)

/-! Concrete inputs used by counterexamples and witness instantiations.
None of them has three or more financial records, so no evaluation below
ever consults the abstract root function. -/

/-- A trivial Root instantiation for concrete runs (never consulted on the
concrete inputs below, whose histories have fewer than three records). -/
def root0 : Root := fun x _ => x

/-- Snapshot with a loss-making current year after a profitable one: EPS is
negative, so several strategies produce negative fair values. -/
def sNeg : Snapshot :=
  { financialData := [⟨5, 0.5, -500, -100, 0⟩, ⟨5, 0.5, 1000, -100, 0⟩]
  , marketData := some ⟨1000, 1000000, 0, 0, 0, 0⟩
  , balanceSheetData := none
  , cashFlowData := none
  , growthMetrics := none
  , efficiencyMetrics := none }

/-- Snapshot on which every strategy produces fair value 0 (zero EPS and BPS,
huge share count). -/
def sZero : Snapshot :=
  { financialData := [⟨15, 1, 0, 0, 0⟩]
  , marketData := some ⟨1000, 1000000, 1000000000000000, 0, 0, 0⟩
  , balanceSheetData := none
  , cashFlowData := none
  , growthMetrics := none
  , efficiencyMetrics := none }

/-- Snapshot whose Greenblatt raw fair value lies between 2.5x and 3x the
current price, so the extreme-value clamp does not fire. -/
def sGb : Snapshot :=
  { financialData := [⟨10, 1, 28, 1000, 0⟩]
  , marketData := some ⟨100, 1000000, 100, 120, 80, 0⟩
  , balanceSheetData := none
  , cashFlowData := none
  , growthMetrics := none
  , efficiencyMetrics := none }

/-- An ordinary profitable snapshot used by witness instantiations (BPS is 0
so that no concrete evaluation needs the integer square root). -/
def sPos : Snapshot :=
  { financialData := [⟨10, 1.2, 5000, 0, 3⟩]
  , marketData := some ⟨50000, 1000000000000, 1000000, 60000, 40000, 5⟩
  , balanceSheetData := none
  , cashFlowData := none
  , growthMetrics := none
  , efficiencyMetrics := none }

/-! Integrality of the rounded strategy fair values: every strategy except
Graham emits a Math.round image (or the constant 0), hence an integer. -/

theorem buffett_fairValue_den (root : Root) (s : Snapshot) :
    ((Buffett.analyze root s).fairValue).den = 1 := by
  simp only [Buffett.analyze]
  exact jsRound_den

theorem lynch_fairValue_den (root : Root) (s : Snapshot) :
    ((Lynch.analyze root s).fairValue).den = 1 := by
  simp only [Lynch.analyze]
  exact jsRound_den

theorem greenblatt_fairValue_den (s : Snapshot) :
    ((Greenblatt.analyze s).fairValue).den = 1 := by
  simp only [Greenblatt.analyze, Greenblatt.calculateGreenblattFairValue]
  split_ifs <;> exact jsRound_den

theorem fisher_fairValue_den (root : Root) (s : Snapshot) :
    ((Fisher.analyze root s).fairValue).den = 1 := by
  simp only [Fisher.analyze]
  rfl

theorem templeton_fairValue_den (s : Snapshot) :
    ((Templeton.analyze s).fairValue).den = 1 := by
  simp only [Templeton.analyze, Templeton.calculateTempletonFairValue]
  exact jsRound_den

/-! Characterization of the consensus aggregation. -/

theorem ccv_none {v : Valuations} (md : Option MarketData) (h : contributions v = []) :
    calculateComprehensiveValuation v md = none := by
  simp [calculateComprehensiveValuation, h]

theorem ccv_some {v : Valuations} (md : Option MarketData) (h : contributions v ≠ []) :
    calculateComprehensiveValuation v md = some
      { weightedAverage := jsRound ((((contributions v).map (fun p => p.1 * p.2)).sum) /
          (((contributions v).map Prod.snd).sum))
      , median := median ((contributions v).map Prod.fst)
      , conservative := listMin ((contributions v).map Prod.fst)
      , optimistic := listMax ((contributions v).map Prod.fst)
      , currentPrice := cpOf md
      , upsideWeighted := GuruAnalyzers.calculateUpside
          (jsRound ((((contributions v).map (fun p => p.1 * p.2)).sum) /
            (((contributions v).map Prod.snd).sum))) (cpOf md)
      , upsideMedian := GuruAnalyzers.calculateUpside
          (median ((contributions v).map Prod.fst)) (cpOf md)
      , upsideConservative := GuruAnalyzers.calculateUpside
          (listMin ((contributions v).map Prod.fst)) (cpOf md)
      , upsideOptimistic := GuruAnalyzers.calculateUpside
          (listMax ((contributions v).map Prod.fst)) (cpOf md) } := by
  simp only [calculateComprehensiveValuation]
  rw [if_neg h]

theorem analyzeAll_ccv (root : Root) (s : Snapshot) :
    (analyzeAll root s).comprehensiveValuation =
      calculateComprehensiveValuation (valuationsOf (analyzeAll root s)) s.marketData := rfl

/-- Weight actually contributed by one strategy: its nominal weight when its
fair value is present and truthy, 0 otherwise. -/
def participatingWeight (o : Option ℚ) (w : ℚ) : ℚ :=
  match o with
  | none => 0
  | some x => if x = 0 then 0 else w

/-- Weighted fair-value term actually contributed by one strategy. -/
def weightedTerm (o : Option ℚ) (w : ℚ) : ℚ :=
  match o with
  | none => 0
  | some x => if x = 0 then 0 else x * w

/-- Sum of the nominal weights of the participating strategies. -/
def specTotalWeight (v : Valuations) : ℚ :=
  participatingWeight v.buffett 0.20 + participatingWeight v.lynch 0.15 +
    participatingWeight v.graham 0.20 + participatingWeight v.greenblatt 0.15 +
    participatingWeight v.fisher 0.15 + participatingWeight v.templeton 0.15

/-- Sum of weight times fair value over the participating strategies. -/
def specWeightedSum (v : Valuations) : ℚ :=
  weightedTerm v.buffett 0.20 + weightedTerm v.lynch 0.15 + weightedTerm v.graham 0.20 +
    weightedTerm v.greenblatt 0.15 + weightedTerm v.fisher 0.15 + weightedTerm v.templeton 0.15

theorem pick_map_mul_sum (o : Option ℚ) (w : ℚ) :
    ((pick o w).map (fun p => p.1 * p.2)).sum = weightedTerm o w := by
  cases o with
  | none => simp [pick, weightedTerm]
  | some x =>
      simp only [pick, weightedTerm]
      split_ifs <;> simp

theorem pick_map_snd_sum (o : Option ℚ) (w : ℚ) :
    ((pick o w).map Prod.snd).sum = participatingWeight o w := by
  cases o with
  | none => simp [pick, participatingWeight]
  | some x =>
      simp only [pick, participatingWeight]
      split_ifs <;> simp

theorem contributions_mul_sum (v : Valuations) :
    ((contributions v).map (fun p => p.1 * p.2)).sum = specWeightedSum v := by
  simp only [contributions, List.map_append, List.sum_append, pick_map_mul_sum, specWeightedSum]

theorem contributions_snd_sum (v : Valuations) :
    ((contributions v).map Prod.snd).sum = specTotalWeight v := by
  simp only [contributions, List.map_append, List.sum_append, pick_map_snd_sum, specTotalWeight]

theorem pick_fst (o : Option ℚ) (w : ℚ) :
    (pick o w).map Prod.fst = (Option.toList o).filter (fun x => decide (x ≠ 0)) := by
  cases o with
  | none => simp [pick]
  | some x =>
      simp only [pick, Option.toList]
      split_ifs with h
      · simp [List.filter, h]
      · simp [List.filter, h]

theorem countP_pick_fst_le_one (o : Option ℚ) (w : ℚ) :
    ((pick o w).map Prod.fst).countP (fun x => decide (x.den ≠ 1)) ≤ 1 := by
  cases o with
  | none => simp [pick]
  | some x =>
      simp only [pick]
      split_ifs <;> simp [List.countP_cons]
      split_ifs <;> omega

theorem countP_pick_fst_zero {x : ℚ} (hx : x.den = 1) (w : ℚ) :
    ((pick (some x) w).map Prod.fst).countP (fun y => decide (y.den ≠ 1)) = 0 := by
  simp only [pick]
  split_ifs <;> simp [List.countP_cons, hx]

theorem contributions_countP_le_one (r : AnalyzeAllResult)
    (hb : r.buffett.fairValue.den = 1) (hl : r.lynch.fairValue.den = 1)
    (hg : r.greenblatt.fairValue.den = 1) (hf : r.fisher.fairValue.den = 1)
    (ht : r.templeton.fairValue.den = 1) :
    ((contributions (valuationsOf r)).map Prod.fst).countP (fun x => decide (x.den ≠ 1)) ≤ 1 := by
  simp only [contributions, valuationsOf, List.map_append, List.countP_append]
  have h1 := countP_pick_fst_zero hb 0.20
  have h2 := countP_pick_fst_zero hl 0.15
  have h3 := countP_pick_fst_le_one (some r.graham.fairValue) 0.20
  have h4 := countP_pick_fst_zero hg 0.15
  have h5 := countP_pick_fst_zero hf 0.15
  have h6 := countP_pick_fst_zero ht 0.15
  omega

theorem pick_ne_nil {x : ℚ} (hx : x ≠ 0) (w : ℚ) : pick (some x) w ≠ [] := by
  simp [pick, hx]

theorem contributions_eq_nil_iff (v : Valuations) :
    contributions v = [] ↔
      pick v.buffett 0.20 = [] ∧ pick v.lynch 0.15 = [] ∧ pick v.graham 0.20 = [] ∧
        pick v.greenblatt 0.15 = [] ∧ pick v.fisher 0.15 = [] ∧ pick v.templeton 0.15 = [] := by
  simp only [contributions, List.append_eq_nil]
  tauto

theorem pick_some_eq_nil {x w : ℚ} (h : pick (some x) w = []) : x = 0 := by
  by_contra hx
  simp [pick, hx] at h

theorem pick_some_zero (w : ℚ) : pick (some 0) w = [] := by
  simp [pick]

theorem analyzeAll_buffett (root : Root) (s : Snapshot) :
    (analyzeAll root s).buffett = Buffett.analyze root s := rfl

theorem analyzeAll_lynch (root : Root) (s : Snapshot) :
    (analyzeAll root s).lynch = Lynch.analyze root s := rfl

theorem analyzeAll_graham (root : Root) (s : Snapshot) :
    (analyzeAll root s).graham = Graham.analyze s := rfl

theorem analyzeAll_greenblatt (root : Root) (s : Snapshot) :
    (analyzeAll root s).greenblatt = Greenblatt.analyze s := rfl

theorem analyzeAll_fisher (root : Root) (s : Snapshot) :
    (analyzeAll root s).fisher = Fisher.analyze root s := rfl

theorem analyzeAll_templeton (root : Root) (s : Snapshot) :
    (analyzeAll root s).templeton = Templeton.analyze s := rfl

/-! Characterization of GrahamAnalyzer.determineFairValue. -/

theorem determineFairValue_le {a b c d x : ℚ} (hx : x ∈ [a, b, c, d]) (hpos : 0 < x) :
    Graham.determineFairValue a b c d ≤ x := by
  unfold Graham.determineFairValue
  have hmem : x ∈ [a, b, c, d].filter (fun v => decide (0 < v)) :=
    List.mem_filter.mpr ⟨hx, by simpa using hpos⟩
  have hne : [a, b, c, d].filter (fun v => decide (0 < v)) ≠ [] := by
    intro h
    rw [h] at hmem
    simp at hmem
  rw [if_neg hne]
  exact listMin_le_of_mem hmem

theorem determineFairValue_mem {a b c d : ℚ} (h : ∃ x ∈ [a, b, c, d], 0 < x) :
    Graham.determineFairValue a b c d ∈ [a, b, c, d] ∧ 0 < Graham.determineFairValue a b c d := by
  unfold Graham.determineFairValue
  obtain ⟨x, hx, hpos⟩ := h
  have hmem : x ∈ [a, b, c, d].filter (fun v => decide (0 < v)) :=
    List.mem_filter.mpr ⟨hx, by simpa using hpos⟩
  have hne : [a, b, c, d].filter (fun v => decide (0 < v)) ≠ [] := by
    intro hcon
    rw [hcon] at hmem
    simp at hmem
  rw [if_neg hne]
  have hmm := listMin_mem hne
  have hsplit := List.mem_filter.mp hmm
  exact ⟨hsplit.1, by simpa using hsplit.2⟩

theorem determineFairValue_zero {a b c d : ℚ} (h : ∀ x ∈ [a, b, c, d], x ≤ 0) :
    Graham.determineFairValue a b c d = 0 := by
  unfold Graham.determineFairValue
  have hnil : [a, b, c, d].filter (fun v => decide (0 < v)) = [] := by
    refine List.filter_eq_nil_iff.mpr ?_
    intro x hx
    simpa using not_lt.mpr (h x hx)
  rw [if_pos hnil]

/-! Well-formedness of each analyzer output (score bounds composed through
the analyze pipelines). -/

theorem buffett_analysis_wf (root : Root) (s : Snapshot) :
    0 ≤ (Buffett.analyze root s).qualityScore ∧ (Buffett.analyze root s).qualityScore ≤ 100 := by
  simp only [Buffett.analyze]
  exact buffettQualityScore_bounds _ _ _ _ _ _ _

theorem lynch_analysis_wf (root : Root) (s : Snapshot) :
    0 ≤ (Lynch.analyze root s).lynchScore ∧ (Lynch.analyze root s).lynchScore ≤ 100 := by
  simp only [Lynch.analyze]
  exact lynchScore_bounds _ _ _ _ _ _

theorem graham_analysis_wf (s : Snapshot) :
    0 ≤ (Graham.analyze s).grahamScore ∧ (Graham.analyze s).grahamScore ≤ 100 := by
  have hd : (Graham.defensiveCriteria s.financialData.headI s.marketData).countP id ≤ 7 := by
    refine (List.countP_le_length id).trans ?_
    simp [Graham.defensiveCriteria]
  have he : (Graham.enterprisingCriteria s.financialData.headI).countP id ≤ 5 := by
    refine (List.countP_le_length id).trans ?_
    simp [Graham.enterprisingCriteria]
  simp only [Graham.analyze]
  exact grahamScore_bounds _ _ _ _ _ _ hd he

theorem greenblatt_analysis_wf (s : Snapshot) :
    0 ≤ (Greenblatt.analyze s).comprehensiveScore ∧
      (Greenblatt.analyze s).comprehensiveScore ≤ 100 := by
  have hq := greenblattQualityMetricsScore_bounds s.financialData.headI
  simp only [Greenblatt.analyze]
  exact greenblattComprehensiveScore_bounds _ _ _ _ hq.1 hq.2

theorem fisher_analysis_wf (root : Root) (s : Snapshot) :
    0 ≤ (Fisher.analyze root s).fisherScore ∧ (Fisher.analyze root s).fisherScore ≤ 100 := by
  have hcs : (Fisher.evaluateFisherChecklist s).countP id ≤ 15 := by
    refine (List.countP_le_length id).trans ?_
    simp [Fisher.evaluateFisherChecklist]
  have hmq := fisherManagementQuality_bounds s
  have hin := fisherInnovation_bounds s.growthMetrics
  have hca := fisherCompetitiveAdvantage_bounds s
  have hltp := fisherLongTermPotential_bounds
    (Fisher.analyzeGrowthMetrics root s.financialData s.growthMetrics)
    (Fisher.evaluateInnovation s.growthMetrics) (Fisher.evaluateCompetitiveAdvantage s)
    hin.1 hin.2 hca.1 hca.2
  simp only [Fisher.analyze]
  exact fisherScore_bounds _ _ _ _ _ _ hcs hmq.1 hmq.2 hin.1 hin.2 hca.1 hca.2 hltp.1 hltp.2

theorem templeton_analysis_wf (s : Snapshot) :
    0 ≤ (Templeton.analyze s).templetonScore ∧ (Templeton.analyze s).templetonScore ≤ 100 := by
  have hp := templetonPessimism_bounds (Templeton.evaluateContrarianIndicators
    s.financialData.headI s.marketData (Templeton.calculate52WeekPosition s.marketData))
  have hg := templetonGlobalValue_bounds s.financialData.headI
  have hc := templetonCrisis_bounds s.marketData (Templeton.calculate52WeekPosition s.marketData)
    (Templeton.calculatePessimismScore (Templeton.evaluateContrarianIndicators
      s.financialData.headI s.marketData (Templeton.calculate52WeekPosition s.marketData)))
  have hv := templetonValueTrap_bounds s.financialData.headI s.financialData
  have hcy := templetonCycleScore_bounds (Templeton.calculate52WeekPosition s.marketData)
    s.marketData
  simp only [Templeton.analyze]
  exact templetonScore_bounds _ _ _ _ _ hp.1 hp.2 hg.1 hg.2 hc.1 hc.2 hv.1 hv.2 hcy.1 hcy.2

/-! The shared concrete evaluations at the loss-making snapshot sNeg: every
strategy fair value, and the resulting consensus contribution list. -/

theorem sNeg_buffett_fv : (Buffett.analyze root0 sNeg).fairValue = -214896081 := by
  norm_num [Buffett.analyze, Buffett.calculateAverageROE, Buffett.calculateROE,
    Buffett.calculateDebtToEquity, Buffett.calculateOwnerEarnings, Buffett.calculateFCF,
    Buffett.calculateRetainedEarningsGrowth, Buffett.calculateDCFValue, sNeg, cpOf, jsOr,
    round2, jsRound, List.headI, powRoot, root0, Finset.sum_range_succ, Finset.sum_range_zero]

theorem sNeg_lynch_fv : (Lynch.analyze root0 sNeg).fairValue = -4000 := by
  norm_num [Lynch.analyze, Lynch.calculateEPSGrowthRate, Lynch.calculateSalesGrowthRate,
    Lynch.calculatePEG, Lynch.calculateDividendAdjustedPEG, Lynch.classifyCompany,
    Lynch.determineFairPER, Lynch.calculateDebtToEquity, sNeg, cpOf, jsOr, round2, jsRound,
    List.headI, powRoot, root0]

theorem sNeg_graham_fv : (Graham.analyze sNeg).fairValue = 0 := by
  norm_num [Graham.analyze, Graham.calculateNCAV, Graham.calculateGrahamNumber,
    Graham.calculateLiquidationValue, Graham.calculateEarningsValue, Graham.determineFairValue,
    sNeg, cpOf, jsOr, round2, jsRound, List.headI, listMin]

theorem sNeg_greenblatt_fv : (Greenblatt.analyze sNeg).fairValue = -5000 := by
  norm_num [Greenblatt.analyze, Greenblatt.calculateROIC, Greenblatt.calculateEarningsYield,
    Greenblatt.calculateGreenblattFairValue, Greenblatt.targetYieldOf, sNeg, cpOf, jsOr,
    round2, jsRound, List.headI]

theorem sNeg_fisher_fv : (Fisher.analyze root0 sNeg).fairValue = 0 := by
  norm_num [Fisher.analyze]

theorem sNeg_templeton_fv : (Templeton.analyze sNeg).fairValue = -7200 := by
  norm_num [Templeton.analyze, Templeton.calculate52WeekPosition,
    Templeton.evaluateContrarianIndicators, Templeton.calculatePessimismScore,
    Templeton.indPts, Templeton.evaluateGlobalRelativeValue, Templeton.gvPerPoints,
    Templeton.gvPbrPoints, Templeton.gvDivPoints, Templeton.assessValueTrapRisk,
    Templeton.vtrDeclinePoints, Templeton.calculateTempletonFairValue, Templeton.yearReturnOf,
    sNeg, cpOf, jsOr, round2, jsRound, List.headI]

theorem sNeg_contributions :
    contributions (valuationsOf (analyzeAll root0 sNeg)) =
      [(-214896081, 0.20), (-4000, 0.15), (-5000, 0.15), (-7200, 0.15)] := by
  simp only [valuationsOf, analyzeAll_buffett, analyzeAll_lynch, analyzeAll_graham,
    analyzeAll_greenblatt, analyzeAll_fisher, analyzeAll_templeton, sNeg_buffett_fv,
    sNeg_lynch_fv, sNeg_graham_fv, sNeg_greenblatt_fv, sNeg_fisher_fv, sNeg_templeton_fv,
    contributions, pick]
  norm_num

theorem sNeg_contributions_ne_nil :
    contributions (valuationsOf (analyzeAll root0 sNeg)) ≠ [] := by
  rw [sNeg_contributions]
  simp

/-! The claims. -/

/-- Claim C1, counterexample: on the snapshot sGb the Greenblatt fair value is
280 while the current price is 100, so the fair value exceeds 2.5 times the
current price.  The clamp in calculateGreenblattFairValue only fires above
3 times the price, so raw values between 2.5x and 3x pass through. -/
theorem c1_greenblatt_ceiling_counterexample :
    ¬ ((Greenblatt.analyze sGb).fairValue ≤ 5 / 2 * cpOf sGb.marketData) := by
  have h : (Greenblatt.analyze sGb).fairValue = 280 := by
    norm_num [Greenblatt.analyze, Greenblatt.calculateROIC, Greenblatt.calculateEarningsYield,
      Greenblatt.calculateGreenblattFairValue, Greenblatt.targetYieldOf, sGb, cpOf, jsOr,
      round2, jsRound, List.headI]
  rw [h]
  norm_num [cpOf, sGb]

/-- Claim C1, amended: for every snapshot whose current price is nonnegative,
the Greenblatt fair value is at most round(3 x currentPrice): below the 3x
trigger the raw rounded value (at most 3x the price) is returned, above it
round(2.5 x price) is. -/
theorem c1_greenblatt_ceiling_amended (s : Snapshot) (h : 0 ≤ cpOf s.marketData) :
    (Greenblatt.analyze s).fairValue ≤ jsRound (3 * cpOf s.marketData) := by
  simp only [Greenblatt.analyze]
  exact calculateGreenblattFairValue_le_cap _ _ _ h

/-- Claim C1, witness: the amended bound instantiated at the snapshot sGb. -/
theorem c1_greenblatt_ceiling_amended_witness :
    0 ≤ cpOf sGb.marketData ∧
      (Greenblatt.analyze sGb).fairValue ≤ jsRound (3 * cpOf sGb.marketData) :=
  ⟨by norm_num [cpOf, sGb], c1_greenblatt_ceiling_amended sGb (by norm_num [cpOf, sGb])⟩

/-- Claim C2, counterexample: on sNeg the Lynch fair value is -4000, not
strictly positive, yet the consensus exists and its optimistic maximum equals
exactly that negative value, so a result with fairValue <= 0 contributed: the
source filters contributions by JS truthiness (nonzero), not by positivity. -/
theorem c2_contributing_set_counterexample :
    (analyzeAll root0 sNeg).lynch.fairValue = -4000 ∧
      ((analyzeAll root0 sNeg).comprehensiveValuation.map
        (fun cv => cv.optimistic)).getD 1 = -4000 := by
  constructor
  · rw [analyzeAll_lynch]
    exact sNeg_lynch_fv
  · rw [analyzeAll_ccv, ccv_some sNeg.marketData sNeg_contributions_ne_nil]
    simp only [Option.map_some', Option.getD_some, sNeg_contributions]
    norm_num [listMax]

/-- Claim C2, amended: the fair values feeding the consensus aggregation are
exactly the six strategy fair values, in source order, filtered by being
nonzero (JS truthiness): zero values are dropped, but negative values do
contribute. -/
theorem c2_contributing_set_amended (r : AnalyzeAllResult) :
    (contributions (valuationsOf r)).map Prod.fst =
      [r.buffett.fairValue, r.lynch.fairValue, r.graham.fairValue, r.greenblatt.fairValue,
        r.fisher.fairValue, r.templeton.fairValue].filter (fun x => decide (x ≠ 0)) := by
  simp only [contributions, valuationsOf, List.map_append, pick_fst, Option.toList,
    ← List.filter_append]
  rfl

/-- Claim C3: the Graham fair value is the minimum of the four candidate
values (net-net value, Graham number, liquidation value, earnings-power
value) taken over the strictly positive candidates only: when some candidate
is positive the fair value is a positive candidate that bounds every positive
candidate from below, and when no candidate is positive it is 0. -/
theorem c3_graham_fairValue_min_of_positive (s : Snapshot) :
    ((∃ x ∈ [(Graham.analyze s).netNetValue, (Graham.analyze s).grahamNumber,
        (Graham.analyze s).liquidationValue, (Graham.analyze s).earningsValue], 0 < x) →
      ((Graham.analyze s).fairValue ∈ [(Graham.analyze s).netNetValue,
          (Graham.analyze s).grahamNumber, (Graham.analyze s).liquidationValue,
          (Graham.analyze s).earningsValue] ∧
        0 < (Graham.analyze s).fairValue ∧
        ∀ x ∈ [(Graham.analyze s).netNetValue, (Graham.analyze s).grahamNumber,
          (Graham.analyze s).liquidationValue, (Graham.analyze s).earningsValue],
          0 < x → (Graham.analyze s).fairValue ≤ x)) ∧
    ((∀ x ∈ [(Graham.analyze s).netNetValue, (Graham.analyze s).grahamNumber,
        (Graham.analyze s).liquidationValue, (Graham.analyze s).earningsValue], x ≤ 0) →
      (Graham.analyze s).fairValue = 0) := by
  simp only [Graham.analyze]
  constructor
  · intro h
    obtain ⟨hmem, hpos⟩ := determineFairValue_mem h
    exact ⟨hmem, hpos, fun x hx hxpos => determineFairValue_le hx hxpos⟩
  · exact determineFairValue_zero

/-- Claim C3, witness: at sPos the earnings-power value 72500 is a positive
candidate, and the Graham fair value is a positive candidate bounding every
positive candidate from below. -/
theorem c3_graham_fairValue_min_of_positive_witness :
    (∃ x ∈ [(Graham.analyze sPos).netNetValue, (Graham.analyze sPos).grahamNumber,
        (Graham.analyze sPos).liquidationValue, (Graham.analyze sPos).earningsValue], 0 < x) ∧
      ((Graham.analyze sPos).fairValue ∈ [(Graham.analyze sPos).netNetValue,
          (Graham.analyze sPos).grahamNumber, (Graham.analyze sPos).liquidationValue,
          (Graham.analyze sPos).earningsValue] ∧
        0 < (Graham.analyze sPos).fairValue ∧
        ∀ x ∈ [(Graham.analyze sPos).netNetValue, (Graham.analyze sPos).grahamNumber,
          (Graham.analyze sPos).liquidationValue, (Graham.analyze sPos).earningsValue],
          0 < x → (Graham.analyze sPos).fairValue ≤ x) := by
  have hev : (Graham.analyze sPos).earningsValue = 72500 := by
    norm_num [Graham.analyze, Graham.calculateEarningsValue, sPos, jsRound, List.headI]
  have h : ∃ x ∈ [(Graham.analyze sPos).netNetValue, (Graham.analyze sPos).grahamNumber,
      (Graham.analyze sPos).liquidationValue, (Graham.analyze sPos).earningsValue], 0 < x :=
    ⟨(Graham.analyze sPos).earningsValue, by simp, by rw [hev]; norm_num⟩
  exact ⟨h, (c3_graham_fairValue_min_of_positive sPos).1 h⟩

set_option maxHeartbeats 1600000 in
/-- Claim C4: for every snapshot with positive current price on which at
least one strategy produces a strictly positive fair value, the consensus is
produced and satisfies conservative <= median <= optimistic. -/
theorem c4_consensus_ordering (root : Root) (s : Snapshot)
    (hcp : 0 < cpOf s.marketData)
    (hpos : 0 < (analyzeAll root s).buffett.fairValue ∨
      0 < (analyzeAll root s).lynch.fairValue ∨
      0 < (analyzeAll root s).graham.fairValue ∨
      0 < (analyzeAll root s).greenblatt.fairValue ∨
      0 < (analyzeAll root s).fisher.fairValue ∨
      0 < (analyzeAll root s).templeton.fairValue) :
    ∃ cv, (analyzeAll root s).comprehensiveValuation = some cv ∧
      cv.conservative ≤ cv.median ∧ cv.median ≤ cv.optimistic := by
  have hne : contributions (valuationsOf (analyzeAll root s)) ≠ [] := by
    intro hnil
    rw [contributions_eq_nil_iff] at hnil
    simp only [valuationsOf] at hnil
    rcases hpos with h | h | h | h | h | h
    · exact absurd (pick_some_eq_nil hnil.1) h.ne'
    · exact absurd (pick_some_eq_nil hnil.2.1) h.ne'
    · exact absurd (pick_some_eq_nil hnil.2.2.1) h.ne'
    · exact absurd (pick_some_eq_nil hnil.2.2.2.1) h.ne'
    · exact absurd (pick_some_eq_nil hnil.2.2.2.2.1) h.ne'
    · exact absurd (pick_some_eq_nil hnil.2.2.2.2.2) h.ne'
  have hmapne : (contributions (valuationsOf (analyzeAll root s))).map Prod.fst ≠ [] := by
    intro hmap
    exact hne (List.map_eq_nil_iff.mp hmap)
  have hb : (analyzeAll root s).buffett.fairValue.den = 1 := by
    rw [analyzeAll_buffett]
    exact buffett_fairValue_den root s
  have hl : (analyzeAll root s).lynch.fairValue.den = 1 := by
    rw [analyzeAll_lynch]
    exact lynch_fairValue_den root s
  have hg : (analyzeAll root s).greenblatt.fairValue.den = 1 := by
    rw [analyzeAll_greenblatt]
    exact greenblatt_fairValue_den s
  have hf : (analyzeAll root s).fisher.fairValue.den = 1 := by
    rw [analyzeAll_fisher]
    exact fisher_fairValue_den root s
  have ht : (analyzeAll root s).templeton.fairValue.den = 1 := by
    rw [analyzeAll_templeton]
    exact templeton_fairValue_den s
  have hint := contributions_countP_le_one (analyzeAll root s) hb hl hg hf ht
  have hms := listMin_le_median_le_listMax _ hmapne hint
  rw [analyzeAll_ccv]
  exact ⟨_, ccv_some s.marketData hne, hms.1, hms.2⟩

/-- Claim C4, witness: the ordering instantiated at the profitable snapshot
sPos, whose current price is 50000 and whose Lynch fair value 40000 is
positive. -/
theorem c4_consensus_ordering_witness :
    0 < cpOf sPos.marketData ∧ 0 < (analyzeAll root0 sPos).lynch.fairValue ∧
      ∃ cv, (analyzeAll root0 sPos).comprehensiveValuation = some cv ∧
        cv.conservative ≤ cv.median ∧ cv.median ≤ cv.optimistic := by
  have h1 : 0 < cpOf sPos.marketData := by norm_num [cpOf, sPos]
  have h2 : (analyzeAll root0 sPos).lynch.fairValue = 40000 := by
    rw [analyzeAll_lynch]
    norm_num [Lynch.analyze, Lynch.calculateEPSGrowthRate, Lynch.calculateSalesGrowthRate,
      Lynch.calculatePEG, Lynch.calculateDividendAdjustedPEG, Lynch.classifyCompany,
      Lynch.determineFairPER, Lynch.calculateDebtToEquity, sPos, cpOf, jsOr, round2, jsRound,
      List.headI, powRoot, root0]
  exact ⟨h1, by rw [h2]; norm_num,
    c4_consensus_ordering root0 sPos h1 (Or.inr (Or.inl (by rw [h2]; norm_num)))⟩

/-- Claim C5, counterexample: on sNeg no strategy produces a strictly
positive fair value, yet a consensus IS produced, because negative fair
values pass the source's truthiness filter. -/
theorem c5_absent_consensus_counterexample :
    ((analyzeAll root0 sNeg).buffett.fairValue ≤ 0 ∧
      (analyzeAll root0 sNeg).lynch.fairValue ≤ 0 ∧
      (analyzeAll root0 sNeg).graham.fairValue ≤ 0 ∧
      (analyzeAll root0 sNeg).greenblatt.fairValue ≤ 0 ∧
      (analyzeAll root0 sNeg).fisher.fairValue ≤ 0 ∧
      (analyzeAll root0 sNeg).templeton.fairValue ≤ 0) ∧
      ((analyzeAll root0 sNeg).comprehensiveValuation).isSome = true := by
  refine ⟨⟨?_, ?_, ?_, ?_, ?_, ?_⟩, ?_⟩
  · rw [analyzeAll_buffett, sNeg_buffett_fv]
    norm_num
  · rw [analyzeAll_lynch, sNeg_lynch_fv]
    norm_num
  · rw [analyzeAll_graham, sNeg_graham_fv]
  · rw [analyzeAll_greenblatt, sNeg_greenblatt_fv]
    norm_num
  · rw [analyzeAll_fisher, sNeg_fisher_fv]
  · rw [analyzeAll_templeton, sNeg_templeton_fv]
    norm_num
  · rw [analyzeAll_ccv, ccv_some sNeg.marketData sNeg_contributions_ne_nil]
    rfl

/-- Claim C5, amended: when every strategy fair value is zero (no usable
value in the sense of the code's truthiness test), no consensus is produced
at all: the field is left absent, not zero-filled. -/
theorem c5_absent_consensus_amended (root : Root) (s : Snapshot)
    (hb : (analyzeAll root s).buffett.fairValue = 0)
    (hl : (analyzeAll root s).lynch.fairValue = 0)
    (hg : (analyzeAll root s).graham.fairValue = 0)
    (hgb : (analyzeAll root s).greenblatt.fairValue = 0)
    (hf : (analyzeAll root s).fisher.fairValue = 0)
    (ht : (analyzeAll root s).templeton.fairValue = 0) :
    (analyzeAll root s).comprehensiveValuation = none := by
  rw [analyzeAll_ccv]
  refine ccv_none s.marketData ?_
  rw [contributions_eq_nil_iff]
  simp only [valuationsOf, analyzeAll_buffett, analyzeAll_lynch, analyzeAll_graham,
    analyzeAll_greenblatt, analyzeAll_fisher, analyzeAll_templeton] at hb hl hg hgb hf ht ⊢
  rw [hb, hl, hg, hgb, hf, ht]
  exact ⟨pick_some_zero _, pick_some_zero _, pick_some_zero _, pick_some_zero _,
    pick_some_zero _, pick_some_zero _⟩

/-- Claim C5, witness: on the zero-earnings snapshot sZero all six fair
values are 0 and the consensus is absent. -/
theorem c5_absent_consensus_amended_witness :
    ((analyzeAll root0 sZero).buffett.fairValue = 0 ∧
      (analyzeAll root0 sZero).lynch.fairValue = 0 ∧
      (analyzeAll root0 sZero).graham.fairValue = 0 ∧
      (analyzeAll root0 sZero).greenblatt.fairValue = 0 ∧
      (analyzeAll root0 sZero).fisher.fairValue = 0 ∧
      (analyzeAll root0 sZero).templeton.fairValue = 0) ∧
      (analyzeAll root0 sZero).comprehensiveValuation = none := by
  have hb : (analyzeAll root0 sZero).buffett.fairValue = 0 := by
    rw [analyzeAll_buffett]
    norm_num [Buffett.analyze, Buffett.calculateAverageROE, Buffett.calculateROE,
      Buffett.calculateDebtToEquity, Buffett.calculateOwnerEarnings, Buffett.calculateFCF,
      Buffett.calculateRetainedEarningsGrowth, Buffett.calculateDCFValue, sZero, cpOf, jsOr,
      round2, jsRound, List.headI, powRoot, root0, Finset.sum_range_succ, Finset.sum_range_zero]
  have hl : (analyzeAll root0 sZero).lynch.fairValue = 0 := by
    rw [analyzeAll_lynch]
    norm_num [Lynch.analyze, Lynch.calculateEPSGrowthRate, Lynch.calculateSalesGrowthRate,
      Lynch.calculatePEG, Lynch.calculateDividendAdjustedPEG, Lynch.classifyCompany,
      Lynch.determineFairPER, Lynch.calculateDebtToEquity, sZero, cpOf, jsOr, round2, jsRound,
      List.headI, powRoot, root0]
  have hg : (analyzeAll root0 sZero).graham.fairValue = 0 := by
    rw [analyzeAll_graham]
    norm_num [Graham.analyze, Graham.calculateNCAV, Graham.calculateGrahamNumber,
      Graham.calculateLiquidationValue, Graham.calculateEarningsValue,
      Graham.determineFairValue, sZero, cpOf, jsOr, round2, jsRound, List.headI, listMin]
  have hgb : (analyzeAll root0 sZero).greenblatt.fairValue = 0 := by
    rw [analyzeAll_greenblatt]
    norm_num [Greenblatt.analyze, Greenblatt.calculateROIC, Greenblatt.calculateEarningsYield,
      Greenblatt.calculateGreenblattFairValue, Greenblatt.targetYieldOf, sZero, cpOf, jsOr,
      round2, jsRound, List.headI]
  have hf : (analyzeAll root0 sZero).fisher.fairValue = 0 := by
    rw [analyzeAll_fisher]
    norm_num [Fisher.analyze]
  have ht : (analyzeAll root0 sZero).templeton.fairValue = 0 := by
    rw [analyzeAll_templeton]
    norm_num [Templeton.analyze, Templeton.calculate52WeekPosition,
      Templeton.evaluateContrarianIndicators, Templeton.calculatePessimismScore,
      Templeton.indPts, Templeton.evaluateGlobalRelativeValue, Templeton.gvPerPoints,
      Templeton.gvPbrPoints, Templeton.gvDivPoints, Templeton.assessValueTrapRisk,
      Templeton.vtrDeclinePoints, Templeton.calculateTempletonFairValue,
      Templeton.yearReturnOf, sZero, cpOf, jsOr, round2, jsRound, List.headI]
  exact ⟨⟨hb, hl, hg, hgb, hf, ht⟩,
    c5_absent_consensus_amended root0 sZero hb hl hg hgb hf ht⟩

/-- Claim C6: whenever a consensus is produced, its weightedAverage equals
the rounded quotient of the sum of weight times fair value by the sum of the
nominal weights, both sums ranging over exactly the participating strategies
(weights Buffett and Graham 0.20, the others 0.15): the weights are
renormalized among participants, not used as absolute fractions. -/
theorem c6_weighted_average_renormalized (v : Valuations) (md : Option MarketData)
    (cv : ComprehensiveValuation) (h : calculateComprehensiveValuation v md = some cv) :
    cv.weightedAverage = jsRound (specWeightedSum v / specTotalWeight v) := by
  have hne : contributions v ≠ [] := by
    intro hnil
    rw [ccv_none md hnil] at h
    exact Option.noConfusion h
  rw [ccv_some md hne] at h
  obtain rfl := (Option.some.inj h).symm
  simp only [contributions_mul_sum, contributions_snd_sum]

/-- Two mixed participation patterns used to witness the renormalization:
Lynch and Fisher present but zero (dropped), Graham and Templeton absent. -/
def vW : Valuations :=
  { buffett := some 100, lynch := some 0, graham := none
  , greenblatt := some 200, fisher := some 0, templeton := none }

/-- The consensus record computed from vW without market data: the weighted
average is round((100 x 0.20 + 200 x 0.15) / 0.35) = 143. -/
def cW : ComprehensiveValuation :=
  { weightedAverage := 143, median := 150, conservative := 100, optimistic := 200
  , currentPrice := 0, upsideWeighted := 0, upsideMedian := 0, upsideConservative := 0
  , upsideOptimistic := 0 }

/-- Claim C6, witness: the renormalized weighted average at the concrete
valuations vW. -/
theorem c6_weighted_average_renormalized_witness :
    calculateComprehensiveValuation vW none = some cW ∧
      cW.weightedAverage = jsRound (specWeightedSum vW / specTotalWeight vW) := by
  have hc : contributions vW = [(100, 1 / 5), (200, 3 / 20)] := by
    norm_num [contributions, pick, vW]
  have hne : contributions vW ≠ [] := by
    rw [hc]
    simp
  have h : calculateComprehensiveValuation vW none = some cW := by
    rw [ccv_some none hne]
    norm_num [contributions, pick, vW, cW, median, listMin, listMax, jsRound,
      GuruAnalyzers.calculateUpside, cpOf, List.insertionSort, List.orderedInsert,
      List.getD_cons_zero, List.getD_cons_succ, ComprehensiveValuation.mk.injEq]
  exact ⟨h, c6_weighted_average_renormalized vW none cW h⟩

/-- Claim C7: for every snapshot and every strategy, the recommendation is
one of the five enumeration values and the composite score lies in [0, 100]. -/
theorem c7_recommendation_and_score_ranges (root : Root) (s : Snapshot) :
    ((analyzeAll root s).buffett.recommendation ∈
        [Rec.strongBuy, Rec.buy, Rec.hold, Rec.sell, Rec.strongSell] ∧
      0 ≤ (analyzeAll root s).buffett.qualityScore ∧
      (analyzeAll root s).buffett.qualityScore ≤ 100) ∧
    ((analyzeAll root s).lynch.recommendation ∈
        [Rec.strongBuy, Rec.buy, Rec.hold, Rec.sell, Rec.strongSell] ∧
      0 ≤ (analyzeAll root s).lynch.lynchScore ∧
      (analyzeAll root s).lynch.lynchScore ≤ 100) ∧
    ((analyzeAll root s).graham.recommendation ∈
        [Rec.strongBuy, Rec.buy, Rec.hold, Rec.sell, Rec.strongSell] ∧
      0 ≤ (analyzeAll root s).graham.grahamScore ∧
      (analyzeAll root s).graham.grahamScore ≤ 100) ∧
    ((analyzeAll root s).greenblatt.recommendation ∈
        [Rec.strongBuy, Rec.buy, Rec.hold, Rec.sell, Rec.strongSell] ∧
      0 ≤ (analyzeAll root s).greenblatt.comprehensiveScore ∧
      (analyzeAll root s).greenblatt.comprehensiveScore ≤ 100) ∧
    ((analyzeAll root s).fisher.recommendation ∈
        [Rec.strongBuy, Rec.buy, Rec.hold, Rec.sell, Rec.strongSell] ∧
      0 ≤ (analyzeAll root s).fisher.fisherScore ∧
      (analyzeAll root s).fisher.fisherScore ≤ 100) ∧
    ((analyzeAll root s).templeton.recommendation ∈
        [Rec.strongBuy, Rec.buy, Rec.hold, Rec.sell, Rec.strongSell] ∧
      0 ≤ (analyzeAll root s).templeton.templetonScore ∧
      (analyzeAll root s).templeton.templetonScore ≤ 100) := by
  simp only [analyzeAll_buffett, analyzeAll_lynch, analyzeAll_graham, analyzeAll_greenblatt,
    analyzeAll_fisher, analyzeAll_templeton]
  exact ⟨⟨rec_mem_all _, (buffett_analysis_wf root s).1, (buffett_analysis_wf root s).2⟩,
    ⟨rec_mem_all _, (lynch_analysis_wf root s).1, (lynch_analysis_wf root s).2⟩,
    ⟨rec_mem_all _, (graham_analysis_wf s).1, (graham_analysis_wf s).2⟩,
    ⟨rec_mem_all _, (greenblatt_analysis_wf s).1, (greenblatt_analysis_wf s).2⟩,
    ⟨rec_mem_all _, (fisher_analysis_wf root s).1, (fisher_analysis_wf root s).2⟩,
    ⟨rec_mem_all _, (templeton_analysis_wf s).1, (templeton_analysis_wf s).2⟩⟩

/-- Claim C8: when the market payload cannot yield a strictly positive
current price, analyzeEquity fails with an error before any valuation is
computed; and when the price group succeeds (no upstream error, a positive
price), the analysis succeeds whatever the non-price financial records are,
including none at all. -/
theorem c8_price_gate (md : Option BasicMarketData) (fd : List FinancialData) :
    ((∀ p : ℕ, md.bind (fun m => m.currentPrice) = some p → p = 0) →
      ∃ e, analyzeEquity md fd = Except.error e) ∧
    (∀ m : BasicMarketData, md = some m → m.errorMsg = none →
      ∀ p : ℕ, m.currentPrice = some p → p ≠ 0 →
        ∃ q, analyzeEquity md fd = Except.ok q) := by
  constructor
  · intro h
    unfold analyzeEquity
    split_ifs with h1
    · exact ⟨_, rfl⟩
    · rcases hbind : md.bind (fun m => m.currentPrice) with _ | p
      · exact ⟨_, rfl⟩
      · obtain rfl := h p hbind
        exact ⟨_, rfl⟩
  · rintro m rfl herr p hp hp0
    unfold analyzeEquity
    simp [herr, hp, hp0]

/-- Claim C8, witness: with no price the gate errors, and with a positive
price and empty financial records the analysis succeeds. -/
theorem c8_price_gate_witness :
    (∃ e, analyzeEquity (some ⟨none, none, some 5, some 5⟩) [] = Except.error e) ∧
      ∃ q, analyzeEquity (some ⟨none, some 70000, some 5, some 5⟩) [] = Except.ok q := by
  constructor
  · exact (c8_price_gate (some ⟨none, none, some 5, some 5⟩) []).1
      (by intro p hp; simp at hp)
  · exact (c8_price_gate (some ⟨none, some 70000, some 5, some 5⟩) []).2
      ⟨none, some 70000, some 5, some 5⟩ rfl rfl 70000 rfl (by norm_num)

/-- Claim C9: the six-strategy run plus consensus aggregation is a
deterministic pure function of the snapshot: two runs on equal snapshots
yield identical strategy results and an identical consensus. -/
theorem c9_two_run_determinism (root : Root) (s1 s2 : Snapshot) (h : s1 = s2) :
    analyzeAll root s1 = analyzeAll root s2 ∧
      (analyzeAll root s1).comprehensiveValuation =
        (analyzeAll root s2).comprehensiveValuation := by
  subst h
  exact ⟨rfl, rfl⟩

/-- Claim C9, witness: the two-run equality at the concrete snapshot sPos. -/
theorem c9_two_run_determinism_witness :
    analyzeAll root0 sPos = analyzeAll root0 sPos ∧
      (analyzeAll root0 sPos).comprehensiveValuation =
        (analyzeAll root0 sPos).comprehensiveValuation :=
  c9_two_run_determinism root0 sPos sPos rfl

/-- Claim C10: for every fair value and every nonpositive current price, both
upside computations (the per-strategy BaseAnalyzer one and the consensus
aggregator one) return 0 instead of dividing by the price. -/
theorem c10_upside_zero_on_nonpositive_price (fairValue currentPrice : ℚ)
    (h : currentPrice ≤ 0) :
    BaseAnalyzer.calculateUpside fairValue currentPrice = 0 ∧
      GuruAnalyzers.calculateUpside fairValue currentPrice = 0 := by
  constructor
  · simp only [BaseAnalyzer.calculateUpside, if_pos h]
  · simp only [GuruAnalyzers.calculateUpside, if_pos h]

/-- Claim C10, witness: both upside computations return 0 at price -3. -/
theorem c10_upside_zero_on_nonpositive_price_witness :
    ((-3 : ℚ) ≤ 0) ∧ (BaseAnalyzer.calculateUpside 100 (-3) = 0 ∧
      GuruAnalyzers.calculateUpside 100 (-3) = 0) :=
  ⟨by norm_num, c10_upside_zero_on_nonpositive_price 100 (-3) (by norm_num)⟩

end KSA
